import Mathlib

/-!
Verification of the FreeMarker static-analysis engine.

Shallow embedding of the TypeScript sources: the error reporter with its
range normalization and code catalog, the fixed-capacity LRU cache, the
lexer, the control-flow skeleton of the top-level analyze entry point, and
the semantic analyzer with its macro machinery and per-path bookkeeping.
Machine numbers reaching the normalization code are modelled as JS numbers
(possibly NaN, infinite, fractional or negative); JS Map insertion order is
modelled by association lists; JS object references are modelled by indices
into an explicit store where aliasing matters.
-/

/-- A JavaScript number as it can reach the normalization code: NaN,
positive or negative infinity, or a finite rational. -/
inductive JSNum where
  | nan
  | posInf
  | negInf
  | finite (q : ℚ)
deriving DecidableEq

/-- A position as stored on diagnostics after normalization
(1-based line and character, 0-based byte offset). -/
structure Pos where
  line : Int
  character : Int
  offset : Int
deriving DecidableEq

/-- A producer-supplied position: each numeric field may be absent
(undefined) or an arbitrary JS number. -/
structure JSPosition where
  line : Option JSNum
  character : Option JSNum
  offset : Option JSNum
deriving DecidableEq

/-- A producer-supplied range; either endpoint may be absent. The source
field named end is called stop here because end is reserved in Lean. -/
structure JSRange where
  start : Option JSPosition
  stop : Option JSPosition
deriving DecidableEq

/-- A normalized range as stored on a diagnostic. -/
structure DiagRange where
  start : Pos
  stop : Pos
deriving DecidableEq

inductive Severity where
  | error
  | warning
  | info
deriving DecidableEq

/-- Diagnostic shape from index.ts. -/
structure Diagnostic where
  severity : Severity
  message : String
  range : DiagRange
  code : Option String
  source : String
deriving DecidableEq

namespace ErrorReporter

/-- ErrorReporter.normalizeNumber: a non-number or non-finite value falls
back, a finite value is floored and clamped from below. -/
def normalizeNumber (value : Option JSNum) (fallback minimum : Int) : Int :=
  match value with
  | none => fallback
  | some .nan => fallback
  | some .posInf => fallback
  | some .negInf => fallback
  | some (.finite q) =>
      let normalized : Int := ⌊q⌋
      if normalized < minimum then minimum else normalized

/-- ErrorReporter.normalizePosition: a missing position defaults to
line 1, character 1, offset 0. -/
def normalizePosition (position : Option JSPosition) : Pos :=
  match position with
  | none => { line := 1, character := 1, offset := 0 }
  | some p =>
      { line := normalizeNumber p.line 1 1
        character := normalizeNumber p.character 1 1
        offset := normalizeNumber p.offset 0 0 }

/-- ErrorReporter.normalizeRange: normalize both endpoints, then clamp the
end offset and the end (line, character) pair to not precede the start. -/
def normalizeRange (range : Option JSRange) : DiagRange :=
  let start := normalizePosition (range.bind (·.start))
  let stop0 := normalizePosition (range.bind (·.stop))
  let stop1 :=
    if stop0.offset < start.offset then { stop0 with offset := start.offset } else stop0
  let stop2 :=
    if stop1.line < start.line ∨ (stop1.line = start.line ∧ stop1.character < start.character)
    then { stop1 with line := start.line, character := start.character }
    else stop1
  { start := start, stop := stop2 }

/-- Reporter state: the private diagnostics list and suppression set. -/
structure State where
  diagnostics : List Diagnostic
  suppressedCodes : List String
deriving DecidableEq

/-- ErrorReporter.addDiagnostic: skip suppressed codes, otherwise push a
diagnostic whose range is the normalized incoming range. -/
def addDiagnostic (severity : Severity) (message : String) (range : Option JSRange)
    (code : Option String) (source : String) (r : State) : State :=
  if code.any (fun c => decide (c ∈ r.suppressedCodes)) then r
  else
    { r with diagnostics := r.diagnostics ++
        [{ severity := severity, message := message, range := normalizeRange range
           code := code, source := source }] }

def addError (message : String) (range : JSRange) (code : Option String)
    (source : String) (r : State) : State :=
  addDiagnostic .error message (some range) code source r

def addWarning (message : String) (range : JSRange) (code : Option String)
    (source : String) (r : State) : State :=
  addDiagnostic .warning message (some range) code source r

def addInfo (message : String) (range : JSRange) (code : Option String)
    (source : String) (r : State) : State :=
  addDiagnostic .info message (some range) code source r

def clear (r : State) : State :=
  { r with diagnostics := [] }

def suppressCode (code : String) (r : State) : State :=
  { r with suppressedCodes := r.suppressedCodes ++ [code] }

/-- One public mutation of the reporter, for stating invariants over
arbitrary call sequences. -/
inductive Op where
  | opAddError (message : String) (range : JSRange) (code : Option String) (source : String)
  | opAddWarning (message : String) (range : JSRange) (code : Option String) (source : String)
  | opAddInfo (message : String) (range : JSRange) (code : Option String) (source : String)
  | opAddDiagnostic (severity : Severity) (message : String) (range : Option JSRange)
      (code : Option String) (source : String)
  | opClear
  | opSuppressCode (code : String)

def applyOp (r : State) : Op → State
  | .opAddError m rg c s => addError m rg c s r
  | .opAddWarning m rg c s => addWarning m rg c s r
  | .opAddInfo m rg c s => addInfo m rg c s r
  | .opAddDiagnostic sev m rg c s => addDiagnostic sev m rg c s r
  | .opClear => clear r
  | .opSuppressCode c => suppressCode c r

/-- Fresh reporter as built by the constructor. -/
def initial : State :=
  { diagnostics := [], suppressedCodes := [] }

def runOps (ops : List Op) : State :=
  ops.foldl applyOp initial

/-- The range-validity invariant: the end does not precede the start,
lexicographically on (line, character) and on offset. -/
def rangeValid (r : DiagRange) : Prop :=
  (r.start.line < r.stop.line ∨
    (r.start.line = r.stop.line ∧ r.start.character ≤ r.stop.character)) ∧
  r.start.offset ≤ r.stop.offset

end ErrorReporter

/-- A producer-supplied range that is invalid in every modelled way: the
end line is negative, the end character is NaN, and the end offset
precedes the start offset. -/
def c1BadRange : JSRange where
  start := some { line := some (.finite 5), character := some (.finite 7),
                  offset := some (.finite 30) }
  stop := some { line := some (.finite (-2)), character := some .nan,
                 offset := some (.finite 3) }

/-- The diagnostic stored for c1BadRange. -/
def c1StoredDiagnostic : Diagnostic where
  severity := .error
  message := "m"
  range := ErrorReporter.normalizeRange (some c1BadRange)
  code := none
  source := "FreeMarker"

namespace ErrorReporter

inductive ErrorCategory where
  | syntax_
  | semantic
  | type_
  | import_
  | reference
  | deprecated
  | style
  | performance
deriving DecidableEq

/-- ErrorCode entries of the catalog built by initializeErrorCodes. -/
structure ErrorCode where
  code : String
  description : String
  severity : Severity
  category : ErrorCategory
deriving DecidableEq

/-- The fixed code catalog from ErrorReporter.initializeErrorCodes. -/
def errorCodes : List ErrorCode :=
  [ { code := "FTL1001", description := "Unexpected token", severity := .error, category := .syntax_ },
    { code := "FTL1002", description := "Missing closing tag", severity := .error, category := .syntax_ },
    { code := "FTL1003", description := "Invalid directive name", severity := .error, category := .syntax_ },
    { code := "FTL1004", description := "Malformed expression", severity := .error, category := .syntax_ },
    { code := "FTL1005", description := "Unclosed string literal", severity := .error, category := .syntax_ },
    { code := "FTL1006", description := "Invalid character in identifier", severity := .error, category := .syntax_ },
    { code := "FTL2001", description := "Undefined variable", severity := .error, category := .semantic },
    { code := "FTL2002", description := "Undefined macro", severity := .error, category := .semantic },
    { code := "FTL2003", description := "Undefined function", severity := .error, category := .semantic },
    { code := "FTL2004", description := "Variable redefinition", severity := .warning, category := .semantic },
    { code := "FTL2005", description := "Macro redefinition", severity := .warning, category := .semantic },
    { code := "FTL2006", description := "Function redefinition", severity := .warning, category := .semantic },
    { code := "FTL2007", description := "Unreachable code", severity := .warning, category := .semantic },
    { code := "FTL3001", description := "Type mismatch", severity := .error, category := .type_ },
    { code := "FTL3002", description := "Invalid operation on type", severity := .error, category := .type_ },
    { code := "FTL3003", description := "Cannot convert type", severity := .error, category := .type_ },
    { code := "FTL3004", description := "Null pointer access", severity := .warning, category := .type_ },
    { code := "FTL4001", description := "File not found", severity := .error, category := .import_ },
    { code := "FTL4002", description := "Circular dependency", severity := .error, category := .import_ },
    { code := "FTL4003", description := "Invalid import path", severity := .error, category := .import_ },
    { code := "FTL4004", description := "Import alias conflict", severity := .warning, category := .import_ },
    { code := "FTL5001", description := "Unused variable", severity := .warning, category := .reference },
    { code := "FTL5002", description := "Unused macro", severity := .warning, category := .reference },
    { code := "FTL5003", description := "Unused function", severity := .warning, category := .reference },
    { code := "FTL5004", description := "Unused import", severity := .warning, category := .reference },
    { code := "FTL6001", description := "Deprecated syntax", severity := .warning, category := .deprecated },
    { code := "FTL6002", description := "Deprecated directive", severity := .warning, category := .deprecated },
    { code := "FTL6003", description := "Deprecated built-in", severity := .warning, category := .deprecated },
    { code := "FTL7001", description := "Inconsistent indentation", severity := .info, category := .style },
    { code := "FTL7002", description := "Line too long", severity := .info, category := .style },
    { code := "FTL7003", description := "Trailing whitespace", severity := .info, category := .style },
    { code := "FTL7004", description := "Missing documentation", severity := .info, category := .style },
    { code := "FTL8001", description := "Expensive operation in loop", severity := .warning, category := .performance },
    { code := "FTL8002", description := "Deep nesting detected", severity := .info, category := .performance },
    { code := "FTL8003", description := "Large template size", severity := .info, category := .performance } ]

/-- Lookup in the errorCodes map. -/
def lookupErrorCode (code : String) : Option ErrorCode :=
  errorCodes.find? (fun e => e.code = code)

/-- A position carried by the convenience helpers (full Pos from the
analyzer, finite integer fields). -/
def finitePos (p : Pos) : JSPosition :=
  { line := some (.finite p.line), character := some (.finite p.character),
    offset := some (.finite p.offset) }

/-- ErrorReporter.addUndefinedMacroError: range spans the macro name and
the diagnostic uses code FTL2002. -/
def addUndefinedMacroError (macroName : String) (position : Pos) (r : State) : State :=
  let range : JSRange :=
    { start := some (finitePos position)
      stop := some (finitePos { line := position.line,
                                character := position.character + macroName.length,
                                offset := position.offset + macroName.length }) }
  addError ("Undefined macro: '" ++ macroName ++ "'") range (some "FTL2002") "FreeMarker" r

end ErrorReporter

namespace JSHeap

/-- JS arrays-by-reference: a heap of diagnostic arrays, a reference is an
index. Reading a reference yields the current contents. -/
def readArr (heap : List (List Diagnostic)) (i : Nat) : List Diagnostic :=
  heap[i]?.getD []

/-- Mutating the array behind a reference in place. -/
def writeArr (heap : List (List Diagnostic)) (i : Nat) (v : List Diagnostic) :
    List (List Diagnostic) :=
  heap.set i v

/-- ErrorReporter.getDiagnostics: return a fresh array (a new reference)
holding a copy of the current diagnostics contents. -/
def getDiagnostics (heap : List (List Diagnostic)) (diagRef : Nat) :
    Nat × List (List Diagnostic) :=
  (heap.length, heap ++ [readArr heap diagRef])

/-- The diagnostics.push performed by addDiagnostic, seen at the heap
level: append to the array behind the reporter reference. -/
def pushDiagnostic (heap : List (List Diagnostic)) (diagRef : Nat) (d : Diagnostic) :
    List (List Diagnostic) :=
  writeArr heap diagRef (readArr heap diagRef ++ [d])

end JSHeap

/-- The fixed-capacity recency-ordered cache from the shared utilities.
The JS Map insertion order is modelled by an association list whose head
is the oldest entry. -/
structure LRUCache (K V : Type) where
  cache : List (K × V)
  capacity : Nat

namespace LRUCache

variable {K V : Type} [DecidableEq K]

/-- Map.has. -/
def mapHas (k : K) : List (K × V) → Bool
  | [] => false
  | p :: rest => if p.1 = k then true else mapHas k rest

/-- Map.get. -/
def mapGet (k : K) : List (K × V) → Option V
  | [] => none
  | p :: rest => if p.1 = k then some p.2 else mapGet k rest

/-- Map.delete: removes the (unique) entry with the key, keeping order. -/
def mapDelete (k : K) : List (K × V) → List (K × V)
  | [] => []
  | p :: rest => if p.1 = k then rest else p :: mapDelete k rest

/-- Map.set: updates in place if present, otherwise appends (newest last). -/
def mapSet (k : K) (v : V) : List (K × V) → List (K × V)
  | [] => [(k, v)]
  | p :: rest => if p.1 = k then (k, v) :: rest else p :: mapSet k v rest

/-- LRUCache.normalizeCapacity: non-finite becomes 0, otherwise floored
and clamped to at least 0. -/
def normalizeCapacity (value : JSNum) : Nat :=
  match value with
  | .nan => 0
  | .posInf => 0
  | .negInf => 0
  | .finite q => if ⌊q⌋ > 0 then (⌊q⌋).toNat else 0

/-- The constructor. -/
def mk' (maxSize : JSNum) : LRUCache K V :=
  { cache := [], capacity := normalizeCapacity maxSize }

/-- LRUCache.evictIfNeeded: while over capacity, delete the oldest key. -/
def evictIfNeeded (capacity : Nat) (cache : List (K × V)) : List (K × V) :=
  if cache.length > capacity then
    match cache with
    | [] => []
    | _ :: rest => evictIfNeeded capacity rest
  else cache
termination_by cache.length

/-- LRUCache.get: a hit deletes and re-inserts the key to refresh its
recency; returns the value. The source guards the lookup with has and
then reads with a non-null assertion, which is the some branch here. -/
def get (c : LRUCache K V) (k : K) : Option V × LRUCache K V :=
  match mapGet k c.cache with
  | some value =>
      let afterDelete := mapDelete k c.cache
      (some value, { c with cache := mapSet k value afterDelete })
  | none => (none, c)

/-- LRUCache.set: delete an existing entry first, do nothing at capacity
zero, otherwise insert newest and evict while over capacity. -/
def set (c : LRUCache K V) (k : K) (v : V) : LRUCache K V :=
  let afterDelete := if mapHas k c.cache then mapDelete k c.cache else c.cache
  if c.capacity = 0 then { c with cache := afterDelete }
  else
    { c with cache := evictIfNeeded c.capacity (mapSet k v afterDelete) }

end LRUCache

namespace ErrorReporter

/-- ErrorReporter.createPositionFromOffset: 1-based line and character
computed by splitting the prefix before the offset on newlines. -/
def createPositionFromOffset (content : List Char) (offset : Nat) : Pos :=
  let before := content.take offset
  { line := before.count '\n' + 1
    character := (before.reverse.takeWhile (fun ch => ch ≠ '\n')).length + 1
    offset := offset }

/-- ErrorReporter.createRangeFromOffsets. -/
def createRangeFromOffsets (content : List Char) (startOffset stopOffset : Nat) : JSRange :=
  { start := some (finitePos (createPositionFromOffset content startOffset))
    stop := some (finitePos (createPositionFromOffset content stopOffset)) }

end ErrorReporter

/-- SemanticInfo as returned by the top-level analyzer; the maps are
flattened to their key lists, which is all the claims consult. The source
field named variables is called vars because variables is reserved. -/
structure SemanticInfo where
  vars : List String
  macros : List String
  functions : List String
  includes : List String
  imports : List String
deriving DecidableEq

/-- The empty SemanticInfo literal built in the analyze error branches. -/
def emptySemanticInfo : SemanticInfo :=
  { vars := [], macros := [], functions := [], includes := [], imports := [] }

/-- AnalysisResult from index.ts (performance metrics omitted: no claim
consults them). -/
structure AnalysisResult (AST : Type) where
  ast : Option AST
  diagnostics : List Diagnostic
  semanticInfo : SemanticInfo

namespace FreeMarkerStaticAnalyzer

/-- Indices at which the regex for an interpolation opening matches the
content (the regex advances past each two-character match). -/
def interpolationStarts : List Char → Nat → List Nat
  | '$' :: '{' :: rest, i => i :: interpolationStarts rest (i + 2)
  | _ :: rest, i => interpolationStarts rest (i + 1)
  | [], _ => []

/-- Whether a closing brace occurs at or after the given index
(content.indexOf from that index). -/
def hasCloseBraceFrom (content : List Char) (i : Nat) : Bool :=
  (content.drop i).any (fun ch => ch = '}')

/-- FreeMarkerStaticAnalyzer.checkBasicSyntax: every interpolation opening
with no closing brace anywhere after it reports FTL1005 over the range
from the opening to the end of the content. -/
def checkBasicSyntax (content : List Char) (r : ErrorReporter.State) : ErrorReporter.State :=
  (interpolationStarts content 0).foldl
    (fun acc idx =>
      if hasCloseBraceFrom content idx then acc
      else
        ErrorReporter.addError "Unclosed interpolation"
          (ErrorReporter.createRangeFromOffsets content idx content.length)
          (some "FTL1005") "FreeMarker" acc)
    r

/-- The position-(1,1) range used by the catch-all branch of analyze. -/
def internalErrorRange : JSRange :=
  { start := some (ErrorReporter.finitePos { line := 1, character := 1, offset := 0 })
    stop := some (ErrorReporter.finitePos { line := 1, character := 1, offset := 0 }) }

/-- The catch-all branch of analyze: one error diagnostic anchored at
line 1, character 1, then a result with a null ast and empty maps. -/
def internalFailure {AST : Type} (e : String) (r : ErrorReporter.State) :
    AnalysisResult AST × ErrorReporter.State :=
  let r' := ErrorReporter.addError ("Analysis failed: " ++ e) internalErrorRange
    none "FreeMarker" r
  ({ ast := none, diagnostics := r'.diagnostics, semanticInfo := emptySemanticInfo }, r')

/-- Control-flow skeleton of FreeMarkerStaticAnalyzer.analyze. The lexing,
parsing and semantic phases are abstracted as fallible computations (an
error value standing for a thrown exception); checkBasicSyntax is
concrete. The semantic phase contributes no diagnostics, mirroring the
source: the analyzer field is constructed without ever attaching the
error reporter, so its guarded reporter calls all no-op, and
validateDependencies is never invoked from analyze. -/
def analyze {AST : Type} (template : List Char)
    (lexPhase : Except String Unit)
    (parsePhase : Except String AST)
    (semanticPhase : AST → Except String SemanticInfo)
    (r : ErrorReporter.State) : AnalysisResult AST × ErrorReporter.State :=
  let r0 := ErrorReporter.clear r
  let r1 := checkBasicSyntax template r0
  match lexPhase with
  | .error e => internalFailure e r1
  | .ok _ =>
    match parsePhase with
    | .error e =>
        let range := ErrorReporter.createRangeFromOffsets template 0 template.length
        let r2 := ErrorReporter.addError ("Syntax error: " ++ e) range
          (some "FTL1001") "FreeMarker" r1
        ({ ast := none, diagnostics := r2.diagnostics, semanticInfo := emptySemanticInfo }, r2)
    | .ok ast =>
        match semanticPhase ast with
        | .error e => internalFailure e r1
        | .ok info => ({ ast := some ast, diagnostics := r1.diagnostics, semanticInfo := info }, r1)

end FreeMarkerStaticAnalyzer

namespace FreeMarkerLexer

inductive TokenType where
  | TEXT
  | STRING_LITERAL
  | NUMBER_LITERAL
  | BOOLEAN_LITERAL
  | DIRECTIVE_START
  | DIRECTIVE_END
  | MACRO_START
  | MACRO_END
  | INTERPOLATION_START
  | INTERPOLATION_END
  | COMMENT_START
  | COMMENT_END
  | ASSIGN
  | PLUS_ASSIGN
  | MINUS_ASSIGN
  | MULTIPLY_ASSIGN
  | DIVIDE_ASSIGN
  | MODULO_ASSIGN
  | INCREMENT
  | DECREMENT
  | PLUS
  | MINUS
  | MULTIPLY
  | DIVIDE
  | MODULO
  | EQUAL
  | NOT_EQUAL
  | LESS_THAN
  | LESS_EQUAL
  | GREATER_THAN
  | GREATER_EQUAL
  | AND
  | OR
  | NOT
  | RANGE
  | RANGE_INCLUSIVE
  | BUILTIN_START
  | FALLBACK
  | LPAREN
  | RPAREN
  | LBRACKET
  | RBRACKET
  | LBRACE
  | RBRACE
  | COMMA
  | SEMICOLON
  | COLON
  | DOT
  | QUESTION
  | SLASH
  | IDENTIFIER
  | DIRECTIVE_NAME
  | MACRO_NAME
  | IF
  | ELSE
  | ELSEIF
  | LIST
  | AS
  | IN
  | ASSIGN_DIRECTIVE
  | LOCAL
  | GLOBAL
  | FUNCTION
  | MACRO
  | RETURN
  | INCLUDE
  | IMPORT
  | SETTING
  | SWITCH
  | CASE
  | DEFAULT
  | BREAK
  | ATTEMPT
  | RECOVER
  | NESTED
  | COMPRESS
  | ESCAPE
  | NOESCAPE
  | NOPARSE
  | WHITESPACE
  | NEWLINE
  | EOF
  | ERROR
deriving DecidableEq

structure Token where
  type : TokenType
  value : List Char
  position : Pos
  length : Nat
deriving DecidableEq

/-- The lexer state: content, cursor (position, line, character), the
emitted tokens, and the single inDirective flag. -/
structure LexState where
  content : List Char
  position : Nat
  line : Int
  character : Int
  tokens : List Token
  inDirective : Bool
deriving DecidableEq

def keywords : List (String × TokenType) :=
  [ ("if", .IF), ("else", .ELSE), ("elseif", .ELSEIF), ("list", .LIST),
    ("as", .AS), ("in", .IN), ("assign", .ASSIGN_DIRECTIVE), ("local", .LOCAL),
    ("global", .GLOBAL), ("function", .FUNCTION), ("macro", .MACRO),
    ("return", .RETURN), ("include", .INCLUDE), ("import", .IMPORT),
    ("setting", .SETTING), ("switch", .SWITCH), ("case", .CASE),
    ("default", .DEFAULT), ("break", .BREAK), ("attempt", .ATTEMPT),
    ("recover", .RECOVER), ("nested", .NESTED), ("compress", .COMPRESS),
    ("escape", .ESCAPE), ("noescape", .NOESCAPE), ("noparse", .NOPARSE),
    ("true", .BOOLEAN_LITERAL), ("false", .BOOLEAN_LITERAL) ]

def isAtEnd (st : LexState) : Bool :=
  st.position ≥ st.content.length

/-- The character under the cursor; out of range stands for the JS
undefined and is only produced where the source never reads it. -/
def currentChar (st : LexState) : Char :=
  st.content.getD st.position '\x00'

/-- FreeMarkerLexer.advance, split into its cursor move; the returned
character is currentChar of the pre-move state. -/
def advancePos (st : LexState) : LexState :=
  { st with position := st.position + 1, character := st.character + 1 }

def peek (st : LexState) : Char :=
  if isAtEnd st then '\x00' else st.content.getD st.position '\x00'

def peekNext (st : LexState) : Char :=
  if st.position + 1 ≥ st.content.length then '\x00'
  else st.content.getD (st.position + 1) '\x00'

def peekNextNext (st : LexState) : Char :=
  if st.position + 2 ≥ st.content.length then '\x00'
  else st.content.getD (st.position + 2) '\x00'

/-- FreeMarkerLexer.addToken: the recorded position is back-computed from
the current cursor by subtracting the token value length. -/
def addToken (type : TokenType) (value : List Char) (st : LexState) : LexState :=
  { st with tokens := st.tokens ++
      [{ type := type, value := value
         position := { line := st.line, character := st.character - value.length
                       offset := (st.position : Int) - value.length }
         length := value.length }] }

def isDigit (c : Char) : Bool :=
  '0' ≤ c && c ≤ '9'

def isAlpha (c : Char) : Bool :=
  ('a' ≤ c && c ≤ 'z') || ('A' ≤ c && c ≤ 'Z') || c = '_'

def isAlphaNumeric (c : Char) : Bool :=
  isAlpha c || isDigit c

def scanSquareBracket (st : LexState) : LexState :=
  if peek st = '#' then addToken .DIRECTIVE_START [ '[', '#' ] (advancePos st)
  else if peek st = '@' then addToken .MACRO_START [ '[', '@' ] (advancePos st)
  else addToken .LBRACKET [ '[' ] st

def scanDot (st : LexState) : LexState :=
  if peek st = '.' then
    let st1 := advancePos st
    if peek st1 = '.' then addToken .RANGE_INCLUSIVE [ '.', '.', '.' ] (advancePos st1)
    else addToken .RANGE [ '.', '.' ] st1
  else addToken .DOT [ '.' ] st

def scanPlus (st : LexState) : LexState :=
  if peek st = '+' then addToken .INCREMENT [ '+', '+' ] (advancePos st)
  else if peek st = '=' then addToken .PLUS_ASSIGN [ '+', '=' ] (advancePos st)
  else addToken .PLUS [ '+' ] st

def scanMinus (st : LexState) : LexState :=
  if peek st = '-' then addToken .DECREMENT [ '-', '-' ] (advancePos st)
  else if peek st = '=' then addToken .MINUS_ASSIGN [ '-', '=' ] (advancePos st)
  else addToken .MINUS [ '-' ] st

def scanMultiply (st : LexState) : LexState :=
  if peek st = '=' then addToken .MULTIPLY_ASSIGN [ '*', '=' ] (advancePos st)
  else addToken .MULTIPLY [ '*' ] st

def scanModulo (st : LexState) : LexState :=
  if peek st = '=' then addToken .MODULO_ASSIGN [ '%', '=' ] (advancePos st)
  else addToken .MODULO [ '%' ] st

def scanEqual (st : LexState) : LexState :=
  if peek st = '=' then addToken .EQUAL [ '=', '=' ] (advancePos st)
  else addToken .ASSIGN [ '=' ] st

def scanExclamation (st : LexState) : LexState :=
  if peek st = '=' then addToken .NOT_EQUAL [ '!', '=' ] (advancePos st)
  else addToken .NOT [ '!' ] st

def scanAmpersand (st : LexState) : LexState :=
  if peek st = '&' then addToken .AND [ '&', '&' ] (advancePos st)
  else addToken .ERROR [ '&' ] st

def scanPipe (st : LexState) : LexState :=
  if peek st = '|' then addToken .OR [ '|', '|' ] (advancePos st)
  else addToken .ERROR [ '|' ] st

def scanGreaterThan (st : LexState) : LexState :=
  if peek st = '=' then addToken .GREATER_EQUAL [ '>', '=' ] (advancePos st)
  else if st.inDirective then
    addToken .DIRECTIVE_END [ '>' ] { st with inDirective := false }
  else addToken .GREATER_THAN [ '>' ] st

/-- The comment loop of scanComment: consume until the closing marker,
counting embedded newlines; fuel bounds the iteration count and is chosen
by the caller to exceed the remaining input. -/
def scanCommentLoopGo : Nat → LexState → List Char → LexState × List Char
  | 0, st, value => (st, value)
  | fuel + 1, st, value =>
      if st.position < st.content.length then
        if peek st = '-' ∧ peekNext st = '-' ∧ peekNextNext st = '>' then
          (advancePos (advancePos (advancePos st)), value ++ [ '-', '-', '>' ])
        else
          let st1 := if peek st = '\n' then { st with line := st.line + 1, character := 1 } else st
          scanCommentLoopGo fuel (advancePos st1) (value ++ [currentChar st1])
      else (st, value)

def scanComment (st : LexState) : LexState :=
  let res := scanCommentLoopGo (st.content.length - st.position + 1) st [ '<', '#', '-', '-' ]
  addToken .COMMENT_START res.2 res.1

/-- The string loop of scanString: consume until the closing quote,
handling backslash escapes and embedded newlines. -/
def scanStringLoopGo (quote : Char) : Nat → LexState → List Char → LexState × List Char
  | 0, st, value => (st, value)
  | fuel + 1, st, value =>
      if st.position < st.content.length then
        if currentChar st = quote then (st, value)
        else if currentChar st = '\\' then
          let value1 := value ++ [currentChar st]
          let st1 := advancePos st
          if st1.position < st1.content.length then
            scanStringLoopGo quote fuel (advancePos st1) (value1 ++ [currentChar st1])
          else
            scanStringLoopGo quote fuel st1 value1
        else
          let st1 := if currentChar st = '\n' then { st with line := st.line + 1, character := 1 } else st
          scanStringLoopGo quote fuel (advancePos st1) (value ++ [currentChar st1])
      else (st, value)

def scanString (quote : Char) (st : LexState) : LexState :=
  let res := scanStringLoopGo quote (st.content.length - st.position + 1) st [quote]
  let closed :=
    if res.1.position < res.1.content.length then
      (advancePos res.1, res.2 ++ [currentChar res.1])
    else res
  addToken .STRING_LITERAL closed.2 closed.1

/-- Digit run used by scanNumber. -/
def digitRunGo : Nat → LexState → List Char → LexState × List Char
  | 0, st, value => (st, value)
  | fuel + 1, st, value =>
      if st.position < st.content.length then
        if isDigit (currentChar st) then
          digitRunGo fuel (advancePos st) (value ++ [currentChar st])
        else (st, value)
      else (st, value)

def scanNumber (st : LexState) : LexState :=
  let first := st.content.getD (st.position - 1) '\x00'
  let res1 := digitRunGo (st.content.length - st.position + 1) st [first]
  let res2 :=
    if peek res1.1 = '.' ∧ isDigit (peekNext res1.1) then
      digitRunGo (res1.1.content.length - res1.1.position)
        (advancePos res1.1) (res1.2 ++ [ '.' ])
    else res1
  let res3 :=
    if peek res2.1 = 'e' ∨ peek res2.1 = 'E' then
      let st1 := advancePos res2.1
      let value1 := res2.2 ++ [currentChar res2.1]
      let withSign :=
        if peek st1 = '+' ∨ peek st1 = '-' then
          (advancePos st1, value1 ++ [currentChar st1])
        else (st1, value1)
      digitRunGo (withSign.1.content.length - withSign.1.position + 1) withSign.1 withSign.2
    else res2
  addToken .NUMBER_LITERAL res3.2 res3.1

/-- Identifier run: alphanumerics plus underscore, dollar and at. -/
def identRunGo : Nat → LexState → List Char → LexState × List Char
  | 0, st, value => (st, value)
  | fuel + 1, st, value =>
      if st.position < st.content.length then
        if isAlphaNumeric (currentChar st) || currentChar st = '_' ||
            currentChar st = '$' || currentChar st = '@' then
          identRunGo fuel (advancePos st) (value ++ [currentChar st])
        else (st, value)
      else (st, value)

def scanIdentifier (st : LexState) : LexState :=
  let first := st.content.getD (st.position - 1) '\x00'
  let res := identRunGo (st.content.length - st.position + 1) st [first]
  let tokenType :=
    ((keywords.find? (fun p => p.1.toList = res.2)).map Prod.snd).getD .IDENTIFIER
  addToken tokenType res.2 res.1

/-- FreeMarkerLexer.isFreeMarkerSyntax over peek and peekNext. -/
def isFreeMarkerSyntax (st : LexState) : Bool :=
  let c := peek st
  let next := peekNext st
  (c = '<' && (next = '#' || next = '@')) ||
  (c = '[' && (next = '#' || next = '@')) ||
  (c = '$' && next = '\x7b') ||
  c = '>' || c = ']' || c = '\x7d'

/-- Text run of scanText: consume until FreeMarker syntax or a newline. -/
def textRunGo : Nat → LexState → List Char → LexState × List Char
  | 0, st, value => (st, value)
  | fuel + 1, st, value =>
      if st.position < st.content.length then
        if isFreeMarkerSyntax st then (st, value)
        else if peek st = '\n' then (st, value)
        else textRunGo fuel (advancePos st) (value ++ [currentChar st])
      else (st, value)

def scanText (st : LexState) : LexState :=
  let first := st.content.getD (st.position - 1) '\x00'
  let res := textRunGo (st.content.length - st.position + 1) st [first]
  addToken .TEXT res.2 res.1

def scanDollar (st : LexState) : LexState :=
  if peek st = '\x7b' then addToken .INTERPOLATION_START [ '$', '\x7b' ] (advancePos st)
  else scanText st

/-- Close-tag name run used by the closing-tag branch of scanLessThan. -/
def closeTagNameGo : Nat → LexState → List Char → LexState × List Char
  | 0, st, value => (st, value)
  | fuel + 1, st, value =>
      if st.position < st.content.length then
        if isAlphaNumeric (currentChar st) then
          closeTagNameGo fuel (advancePos st) (value ++ [currentChar st])
        else (st, value)
      else (st, value)

def scanLessThan (st : LexState) : LexState :=
  if peek st = '#' then
    let st1 := advancePos st
    if peek st1 = '-' ∧ peekNext st1 = '-' then
      scanComment (advancePos (advancePos st1))
    else
      addToken .DIRECTIVE_START [ '<', '#' ] { st1 with inDirective := true }
  else if peek st = '/' ∧ peekNext st = '#' then
    let st1 := advancePos (advancePos st)
    let st2 := addToken .DIRECTIVE_START [ '<', '#' ] { st1 with inDirective := true }
    let res := closeTagNameGo (st2.content.length - st2.position + 1) st2 []
    addToken .IDENTIFIER ('/' :: res.2) res.1
  else if peek st = '@' then
    addToken .MACRO_START [ '<', '@' ] { (advancePos st) with inDirective := true }
  else if peek st = '=' then addToken .LESS_EQUAL [ '<', '=' ] (advancePos st)
  else addToken .LESS_THAN [ '<' ] st

/-- FreeMarkerLexer.scanToken: consume one character and dispatch. -/
def scanToken (st : LexState) : LexState :=
  let c := currentChar st
  let st1 := advancePos st
  match c with
  | ' ' => addToken .WHITESPACE [c] st1
  | '\r' => addToken .WHITESPACE [c] st1
  | '\t' => addToken .WHITESPACE [c] st1
  | '\n' =>
      let st2 := addToken .NEWLINE [c] st1
      { st2 with line := st2.line + 1, character := 1 }
  | '(' => addToken .LPAREN [c] st1
  | ')' => addToken .RPAREN [c] st1
  | '\x7b' => addToken .LBRACE [c] st1
  | '\x7d' => addToken .RBRACE [c] st1
  | '[' => scanSquareBracket st1
  | ']' => addToken .RBRACKET [c] st1
  | ',' => addToken .COMMA [c] st1
  | ';' => addToken .SEMICOLON [c] st1
  | ':' => addToken .COLON [c] st1
  | '.' => scanDot st1
  | '?' => addToken .QUESTION [c] st1
  | '/' => addToken .SLASH [c] st1
  | '+' => scanPlus st1
  | '-' => scanMinus st1
  | '*' => scanMultiply st1
  | '%' => scanModulo st1
  | '=' => scanEqual st1
  | '!' => scanExclamation st1
  | '&' => scanAmpersand st1
  | '|' => scanPipe st1
  | '<' => scanLessThan st1
  | '>' => scanGreaterThan st1
  | '$' => scanDollar st1
  | '"' => scanString '"' st1
  | '\'' => scanString '\'' st1
  | c =>
      if isDigit c then scanNumber st1
      else if isAlpha c then scanIdentifier st1
      else scanText st1

/-- The tokenize main loop. -/
def scanTokensGo : Nat → LexState → LexState
  | 0, st => st
  | fuel + 1, st =>
      if st.position < st.content.length then scanTokensGo fuel (scanToken st)
      else st

def initState (content : List Char) : LexState :=
  { content := content, position := 0, line := 1, character := 1,
    tokens := [], inDirective := false }

/-- The lexer state after the main loop of tokenize. -/
def tokenizeRun (content : List Char) : LexState :=
  scanTokensGo (content.length + 1) (initState content)

/-- FreeMarkerLexer.tokenize: run the loop over the whole input, then
append the terminating EOF token. -/
def tokenize (content : List Char) : List Token :=
  (addToken .EOF [] (tokenizeRun content)).tokens

/-- A scanning step that never rewrites the input and never moves the
cursor backwards. -/
def Mono (f : LexState → LexState) : Prop :=
  ∀ st, (f st).content = st.content ∧ st.position ≤ (f st).position

end FreeMarkerLexer

namespace SemanticAnalyzer

/-- The expression fragment the modelled templates use: literals (carrying
their dataType) and variable references. -/
inductive Expr where
  | lit (dataType : String)
  | var (name : String)
deriving DecidableEq

/-- The directive-body AST fragment consumed by the macro machinery of the
semantic analyzer: macro and function definitions, macro calls with
optionally named arguments, interpolations and literal text. Other node
kinds fall to the default (ignored) case of analyzeNode. -/
inductive Node where
  | defMacro (name : String) (parameters : List String) (body : List Node)
  | defFunction (name : String) (parameters : List String) (body : List Node)
  | callMacro (name : String) (parameters : List (Option String × Expr))
  | interpolation (e : Expr)
  | textNode (s : String)

/-- MacroInfo as a heap object: JS object references are store indices, so
the contextMacros maps and the symbol tables share MacroInfo objects the
way the source shares references. Usage lists and positions are not
carried; no claim consults them. -/
structure MacroInfo where
  name : String
  parameters : List String
  node : Option (List Node)
  contextMacros : List (String × Nat)

structure FunctionInfo where
  name : String
  parameters : List String
deriving DecidableEq

/-- One scope frame; the scope chain is the list of frames, head current,
last the global scope. -/
structure Frame where
  vars : List String
  macros : List (String × Nat)
  functions : List (String × FunctionInfo)
deriving DecidableEq

/-- A diagnostic as the analyzer hands it to its reporter; ranges are not
carried in this fragment. -/
structure SADiag where
  message : String
  code : Option String
deriving DecidableEq

/-- The analyzer state: the MacroInfo store, the scope chain, the reported
diagnostics, the deferred unresolved macro calls, the currently expanding
macro objects, and the flattened semanticInfo maps. -/
structure SAState where
  store : List MacroInfo
  scopes : List Frame
  diags : List SADiag
  unresolved : List String
  active : List Nat
  semMacros : List (String × Nat)
  semVars : List String
  semFunctions : List (String × FunctionInfo)

/-- Association-list lookup mirroring Map.get. -/
def alookup {α : Type} (k : String) : List (String × α) → Option α
  | [] => none
  | p :: rest => if p.1 = k then some p.2 else alookup k rest

/-- Map.set: replace in place when present, append otherwise. -/
def aset {α : Type} (k : String) (v : α) : List (String × α) → List (String × α)
  | [] => [(k, v)]
  | p :: rest => if p.1 = k then (k, v) :: rest else p :: aset k v rest

/-- The set-if-absent merges used when seeding a macro scope. -/
def addIfAbsent {α : Type} (k : String) (v : α) (l : List (String × α)) :
    List (String × α) :=
  if (alookup k l).isSome then l else aset k v l

def emptyFrame : Frame :=
  { vars := [], macros := [], functions := [] }

def currentFrame (st : SAState) : Frame :=
  st.scopes.headD emptyFrame

def setCurrentFrame (st : SAState) (f : Frame) : SAState :=
  { st with scopes := f :: st.scopes.tail }

/-- SemanticAnalyzer.declareMacro: create and register a MacroInfo when
the name is new in the current scope, otherwise update the existing
object in place (parameters and node; contextMacros preserved). -/
def declareMacro (name : String) (parameters : List String) (body : List Node)
    (st : SAState) : SAState × Nat :=
  match alookup name (currentFrame st).macros with
  | none =>
      let id := st.store.length
      let obj : MacroInfo :=
        { name := name, parameters := parameters, node := some body, contextMacros := [] }
      let fr := currentFrame st
      let st1 := setCurrentFrame st { fr with macros := aset name id fr.macros }
      ({ st1 with store := st1.store ++ [obj], semMacros := aset name id st1.semMacros }, id)
  | some id =>
      match st.store[id]? with
      | some obj =>
          let upd : MacroInfo := { obj with parameters := parameters, node := some body }
          ({ st with store := st.store.set id upd }, id)
      | none => (st, id)

/-- SemanticAnalyzer.declareFunction. -/
def declareFunction (name : String) (parameters : List String) (st : SAState) : SAState :=
  match alookup name (currentFrame st).functions with
  | none =>
      let info : FunctionInfo := { name := name, parameters := parameters }
      let fr := currentFrame st
      let st1 := setCurrentFrame st { fr with functions := aset name info fr.functions }
      { st1 with semFunctions := aset name info st1.semFunctions }
  | some _ =>
      match alookup name (currentFrame st).functions with
      | some prev =>
          let fr := currentFrame st
          setCurrentFrame st
            { fr with functions := aset name { prev with parameters := parameters } fr.functions }
      | none => st

/-- Scope-chain variable lookup (findVariable). -/
def findVariable (name : String) (st : SAState) : Bool :=
  st.scopes.any (fun fr => name ∈ fr.vars)

/-- Scope-chain macro lookup (findMacro). -/
def findMacroChain (name : String) : List Frame → Option Nat
  | [] => none
  | fr :: rest =>
      match alookup name fr.macros with
      | some id => some id
      | none => findMacroChain name rest

/-- analyzeExpression on the modelled fragment: a literal yields its type,
an unresolved variable reference reports FTL2001. -/
def analyzeExpression (e : Expr) (st : SAState) : SAState :=
  match e with
  | .lit _ => st
  | .var n =>
      if findVariable n st then st
      else { st with diags := st.diags ++
              [{ message := "Undefined variable: " ++ n, code := some "FTL2001" }] }

/-- The predeclaration pass of analyzeTemplate: every sibling Macro and
Function node is declared before any body node is analyzed. -/
def predeclarePass (body : List Node) (st : SAState) : SAState :=
  body.foldl
    (fun acc child =>
      match child with
      | .defMacro n ps b => (declareMacro n ps b acc).1
      | .defFunction n ps _ => declareFunction n ps acc
      | _ => acc)
    st

/-- One step of the snapshot pass: a sibling macro already registered in
the current scope receives the hoisted map as its contextMacros. -/
def snapshotUpdate (snapshot : List (String × Nat)) (acc : SAState) (child : Node) :
    SAState :=
  match child with
  | .defMacro n _ _ =>
      match alookup n (currentFrame acc).macros with
      | some id =>
          match acc.store[id]? with
          | some obj =>
              let upd : MacroInfo := { obj with contextMacros := snapshot }
              { acc with store := acc.store.set id upd }
          | none => acc
      | none => acc
  | _ => acc

/-- The snapshot pass of analyzeTemplate: every sibling macro receives the
map of hoisted macros as its contextMacros. -/
def snapshotPass (body : List Node) (st : SAState) : SAState :=
  let snapshot := (currentFrame st).macros
  body.foldl (snapshotUpdate snapshot) st

/-- SemanticAnalyzer.reportUnresolvedMacros: after the whole template is
analyzed, each deferred macro call whose name is still not in the
semanticInfo macro map reports an undefined-macro diagnostic carrying
code FTL2004; the deferred list is then emptied. -/
def reportUnresolvedMacros (st : SAState) : SAState :=
  let st1 := st.unresolved.foldl
    (fun acc n =>
      if (alookup n acc.semMacros).isSome then acc
      else { acc with diags := acc.diags ++
              [{ message := "Undefined macro: " ++ n, code := some "FTL2004" }] })
    st
  { st1 with unresolved := [] }

mutual

/-- analyzeNode over the modelled fragment; fuel bounds the recursion
depth of macro expansion and is chosen large enough at the call site. -/
def analyzeNodeF : Nat → Node → SAState → Option SAState
  | 0, _, _ => none
  | fuel + 1, node, st =>
      match node with
      | .textNode _ => some st
      | .interpolation e => some (analyzeExpression e st)
      | .defMacro n ps b => analyzeMacroF fuel n ps b st
      | .defFunction n ps b => analyzeFunctionF fuel n ps b st
      | .callMacro n params => analyzeMacroCallF fuel n params st

def analyzeNodesF : Nat → List Node → SAState → Option SAState
  | 0, _, _ => none
  | _ + 1, [], st => some st
  | fuel + 1, n :: rest, st =>
      match analyzeNodeF fuel n st with
      | some st1 => analyzeNodesF fuel rest st1
      | none => none

/-- SemanticAnalyzer.analyzeMacro: declare, then analyze the body in a new
macro scope seeded with the contextMacros and the parent scope macros and
the parameters as locals. -/
def analyzeMacroF : Nat → String → List String → List Node → SAState → Option SAState
  | 0, _, _, _, _ => none
  | fuel + 1, n, ps, body, st =>
      let decl := declareMacro n ps body st
      let st1 := decl.1
      let ctx := match st1.store[decl.2]? with
        | some obj => obj.contextMacros
        | none => []
      let m1 := ctx.foldl (fun acc p => addIfAbsent p.1 p.2 acc) ([] : List (String × Nat))
      let m2 := (currentFrame st1).macros.foldl (fun acc p => addIfAbsent p.1 p.2 acc) m1
      let macroScope : Frame := { vars := ps, macros := m2, functions := [] }
      match analyzeNodesF fuel body { st1 with scopes := macroScope :: st1.scopes } with
      | some st2 => some { st2 with scopes := st2.scopes.tail }
      | none => none

/-- SemanticAnalyzer.analyzeFunction. -/
def analyzeFunctionF : Nat → String → List String → List Node → SAState → Option SAState
  | 0, _, _, _, _ => none
  | fuel + 1, n, ps, body, st =>
      let st1 := declareFunction n ps st
      let functionScope : Frame := { vars := ps, macros := [], functions := [] }
      match analyzeNodesF fuel body { st1 with scopes := functionScope :: st1.scopes } with
      | some st2 => some { st2 with scopes := st2.scopes.tail }
      | none => none

/-- SemanticAnalyzer.analyzeMacroCall: import and include calls only
analyze their argument expressions; a resolved macro with a node is
expanded in an isolated scope seeded with the parameter names and its
contextMacros, guarded against re-entrant expansion by the active set,
and its scope variables are afterwards promoted into the caller scope;
an unresolved call is deferred for the post-template re-check. Argument
matching (named first, positional fill) only selects definition
positions, which this fragment does not carry, so the bound locals are
the parameter names. -/
def analyzeMacroCallF : Nat → String → List (Option String × Expr) → SAState →
    Option SAState
  | 0, _, _, _ => none
  | fuel + 1, n, params, st =>
      if n = "import" ∨ n = "include" then
        some (params.foldl (fun acc p => analyzeExpression p.2 acc) st)
      else
        let st0 := params.foldl (fun acc p => analyzeExpression p.2 acc) st
        let found := match findMacroChain n st0.scopes with
          | some id => some id
          | none => alookup n st0.semMacros
        match found with
        | some id =>
            match st0.store[id]? with
            | some obj =>
                match obj.node with
                | some mbody =>
                    if id ∈ st0.active then some st0
                    else
                      let m1 := obj.contextMacros.foldl
                        (fun acc p => addIfAbsent p.1 p.2 acc) ([] : List (String × Nat))
                      let macroScope : Frame :=
                        { vars := obj.parameters, macros := m1, functions := [] }
                      let st1 := { st0 with active := st0.active ++ [id],
                                            scopes := macroScope :: st0.scopes }
                      match analyzeNodesF fuel mbody st1 with
                      | some st2 =>
                          let newVars := (st2.scopes.headD emptyFrame).vars
                          let st3 := { st2 with scopes := st2.scopes.tail,
                                                active := st2.active.filter (fun j => j ≠ id) }
                          let prev := currentFrame st3
                          let promoted := newVars.foldl
                            (fun (acc : Frame × List String) v =>
                              if v ∈ acc.1.vars then acc
                              else ({ acc.1 with vars := acc.1.vars ++ [v] }, acc.2 ++ [v]))
                            (prev, ([] : List String))
                          some { setCurrentFrame st3 promoted.1 with
                                  semVars := st3.semVars ++ promoted.2 }
                      | none => none
                | none => some { st0 with unresolved := st0.unresolved ++ [n] }
            | none => some { st0 with unresolved := st0.unresolved ++ [n] }
        | none => some { st0 with unresolved := st0.unresolved ++ [n] }

end

/-- The analyzeTemplate order: predeclare all sibling macros and
functions, snapshot the hoisted map into each macro contextMacros, then
analyze the body. Imports and includes, which the source processes before
this and which read the filesystem, are outside the fragment. -/
def analyzeTemplateF (fuel : Nat) (body : List Node) (st : SAState) : Option SAState :=
  analyzeNodesF fuel body (snapshotPass body (predeclarePass body st))

def builtinFunctions : List String :=
  [ "c", "cap_first", "capitalize", "chop_linebreak", "date", "datetime", "ends_with",
    "ensure_ends_with", "ensure_starts_with", "html", "index_of", "j_string",
    "js_string", "json_string", "keep_after", "keep_after_last", "keep_before",
    "keep_before_last", "last_index_of", "left_pad", "length", "lower_case",
    "ltrim", "matches", "number", "number_to_date", "number_to_datetime",
    "number_to_time", "remove_beginning", "remove_ending", "replace", "right_pad",
    "round", "rtrim", "size", "sort", "sort_by", "split", "starts_with", "string",
    "substring", "time", "trim", "uncap_first", "upper_case", "url", "word_list",
    "xhtml", "xml" ]

def builtinVariables : List String :=
  [ ".now", ".data_model", ".globals", ".locals", ".main", ".namespace",
    ".node", ".output_encoding", ".template_name", ".url_escaping_charset",
    ".vars", ".version" ]

/-- The state after initializeAnalysis and addBuiltinSymbols: one global
frame with the builtin functions and variables. -/
def initialSAState : SAState :=
  { store := []
    scopes := [ { vars := builtinVariables, macros := [],
                  functions := builtinFunctions.map
                    (fun n => (n, { name := n, parameters := [] })) } ]
    diags := [], unresolved := [], active := []
    semMacros := [], semVars := [], semFunctions := [] }

/-- One analyze run over a template body without a file path: initialize,
analyze the template, then re-check the deferred unresolved macro calls. -/
def runAnalyze (fuel : Nat) (body : List Node) : Option SAState :=
  match analyzeTemplateF fuel body initialSAState with
  | some st => some (reportUnresolvedMacros st)
  | none => none

/-- The template of the forward-macro-reference property: layout calls
helper, helper is defined after layout, and layout is called at top
level. -/
def c4Template : List Node :=
  [ .defMacro "layout" [] [ .callMacro "helper" [] ],
    .defMacro "helper" [] [ .interpolation (.lit "string") ],
    .callMacro "layout" [] ]

mutual

/-- The names of all macro calls occurring in a node, including those
nested inside macro and function bodies. -/
def callNames : Node → List String
  | .textNode _ => []
  | .interpolation _ => []
  | .callMacro n _ => [n]
  | .defMacro _ _ b => callNamesList b
  | .defFunction _ _ b => callNamesList b

def callNamesList : List Node → List String
  | [] => []
  | n :: rest => callNames n ++ callNamesList rest

end

def callNamesOpt : Option (List Node) → List String
  | none => []
  | some b => callNamesList b

/-- Every macro body held in the store only calls macros named in C. -/
def storeInv (C : List String) (st : SAState) : Prop :=
  ∀ obj ∈ st.store, ∀ n ∈ callNamesOpt obj.node, n ∈ C

/-- What one analysis step does to the observable parts of the state:
the semanticInfo macro map only grows, any added diagnostic is an
undefined-variable diagnostic (FTL2001), any name added to the deferred
unresolved list is the name of a macro call from C, and the store
invariant is preserved. -/
def Rel (C : List String) (st st' : SAState) : Prop :=
  (∀ m, (alookup m st.semMacros).isSome → (alookup m st'.semMacros).isSome) ∧
  (∀ d ∈ st'.diags, d ∈ st.diags ∨ d.code = some "FTL2001") ∧
  (∀ n ∈ st'.unresolved, n ∈ st.unresolved ∨ n ∈ C) ∧
  (storeInv C st → storeInv C st')

/-- A state with one deferred macro call whose name has no declaration,
exercising the post-template re-check. -/
def c9State : SAState :=
  { store := [], scopes := [], diags := [], unresolved := ["x"], active := []
    semMacros := [], semVars := [], semFunctions := [] }

/-- The diagnostic the re-check emits for c9State. -/
def c9Diag : SADiag :=
  { message := "Undefined macro: " ++ "x", code := some "FTL2004" }

/-- Bookkeeping state of one SemanticAnalyzer instance: the processing
and completed path sets and the domain of the per-path result cache. -/
structure BookState where
  processing : List String
  completed : List String
  cacheDom : List String
deriving DecidableEq

def addPath (p : String) (l : List String) : List String :=
  if p ∈ l then l else l ++ [p]

def removePath (p : String) (l : List String) : List String :=
  l.filter (fun q => q ≠ p)

/-- The effect of one analyze call on the bookkeeping sets, as the list
of every state reached during the call: the root-call clear of completed,
the early returns for an in-progress or completed-and-cached path, and
otherwise add to processing, run the body (nested analyses of imported
files run on fresh instances and do not touch these sets), then in the
finally block remove from processing, add to completed and cache the
result. -/
def analyzeBookkeeping (s : BookState) (normalizedPath : Option String) :
    List BookState × BookState :=
  let s1 := if s.processing = [] then { s with completed := [] } else s
  match normalizedPath with
  | none => ([s, s1], s1)
  | some p =>
      if p ∈ s1.processing then ([s, s1], s1)
      else if p ∈ s1.completed ∧ p ∈ s1.cacheDom then
        let s2 := { s1 with completed := addPath p s1.completed }
        ([s, s1, s2], s2)
      else
        let s2 := { s1 with processing := addPath p s1.processing }
        let s3 := { s2 with processing := removePath p s2.processing }
        let s4 := { s3 with completed := addPath p s3.completed,
                            cacheDom := addPath p s3.cacheDom }
        ([s, s1, s2, s3, s4], s4)

/-- All states reached over a sequence of analyze calls on one instance. -/
def runBookkeeping (s : BookState) : List (Option String) → List BookState
  | [] => [s]
  | c :: rest =>
      (analyzeBookkeeping s c).1 ++ runBookkeeping (analyzeBookkeeping s c).2 rest

/-- The fresh-instance bookkeeping state. -/
def initialBook : BookState :=
  { processing := [], completed := [], cacheDom := [] }

/-- The disjointness invariant of C8. -/
def disjointPC (s : BookState) : Prop :=
  ∀ x, ¬(x ∈ s.processing ∧ x ∈ s.completed)

end SemanticAnalyzer


namespace ErrorReporter

theorem rangeValid_normalizeRange (range : Option JSRange) :
    rangeValid (normalizeRange range) := by
  unfold normalizeRange rangeValid
  dsimp only
  split_ifs <;> simp_all <;> omega

theorem addDiagnostic_invariant (severity : Severity) (message : String)
    (range : Option JSRange) (code : Option String) (source : String) (r : State)
    (h : ∀ d ∈ r.diagnostics, rangeValid d.range) :
    ∀ d ∈ (addDiagnostic severity message range code source r).diagnostics,
      rangeValid d.range := by
  intro d hd
  unfold addDiagnostic at hd
  split_ifs at hd
  · exact h d hd
  · simp only [List.mem_append, List.mem_singleton] at hd
    rcases hd with hd | hd
    · exact h d hd
    · subst hd
      exact rangeValid_normalizeRange range

theorem applyOp_invariant (r : State) (op : Op)
    (h : ∀ d ∈ r.diagnostics, rangeValid d.range) :
    ∀ d ∈ (applyOp r op).diagnostics, rangeValid d.range := by
  cases op with
  | opAddError m rg c s => exact addDiagnostic_invariant _ _ _ _ _ _ h
  | opAddWarning m rg c s => exact addDiagnostic_invariant _ _ _ _ _ _ h
  | opAddInfo m rg c s => exact addDiagnostic_invariant _ _ _ _ _ _ h
  | opAddDiagnostic sev m rg c s => exact addDiagnostic_invariant _ _ _ _ _ _ h
  | opClear => intro d hd; simp [applyOp, clear] at hd
  | opSuppressCode c =>
      intro d hd
      simp only [applyOp, suppressCode] at hd
      exact h d hd

theorem runOps_invariant (ops : List Op) :
    ∀ d ∈ (runOps ops).diagnostics, rangeValid d.range := by
  unfold runOps
  have general : ∀ (l : List Op) (r : State),
      (∀ d ∈ r.diagnostics, rangeValid d.range) →
      ∀ d ∈ (l.foldl applyOp r).diagnostics, rangeValid d.range := by
    intro l
    induction l with
    | nil => intro r h; simpa using h
    | cons op rest ih =>
        intro r h
        exact ih (applyOp r op) (applyOp_invariant r op h)
  exact general ops initial (by intro d hd; simp [initial] at hd)

end ErrorReporter

/-- C1: every diagnostic appended through the ErrorReporter public add
methods has a normalized range whose end is not before its start,
lexicographically on (line, character) and on offset; a missing position
defaults to line 1, character 1, offset 0; non-finite fields fall back and
finite fields below the minimum are clamped to the minimum. -/
theorem C1_diagnostic_ranges_normalized (ops : List ErrorReporter.Op) (d : Diagnostic)
    (hd : d ∈ (ErrorReporter.runOps ops).diagnostics) :
    ErrorReporter.rangeValid d.range ∧
    ErrorReporter.normalizePosition none = { line := 1, character := 1, offset := 0 } ∧
    (∀ fb minimum : Int,
      ErrorReporter.normalizeNumber (some .nan) fb minimum = fb ∧
      ErrorReporter.normalizeNumber (some .posInf) fb minimum = fb ∧
      ErrorReporter.normalizeNumber (some .negInf) fb minimum = fb ∧
      ErrorReporter.normalizeNumber none fb minimum = fb) ∧
    (∀ (q : ℚ) (fb minimum : Int), ⌊q⌋ < minimum →
      ErrorReporter.normalizeNumber (some (.finite q)) fb minimum = minimum) := by
  refine ⟨ErrorReporter.runOps_invariant ops d hd, rfl, ?_, ?_⟩
  · intro fb minimum
    exact ⟨rfl, rfl, rfl, rfl⟩
  · intro q fb minimum hq
    simp [ErrorReporter.normalizeNumber, hq]

/-- Concrete instantiation of C1: an addError with an end-before-start,
negative and NaN range is stored with a valid clamped range. -/
theorem C1_diagnostic_ranges_normalized_witness :
    ErrorReporter.rangeValid c1StoredDiagnostic.range := by
  have hmem : c1StoredDiagnostic ∈
      (ErrorReporter.runOps [.opAddError "m" c1BadRange none "FreeMarker"]).diagnostics := by
    simp [ErrorReporter.runOps, ErrorReporter.applyOp, ErrorReporter.addError,
      ErrorReporter.addDiagnostic, ErrorReporter.initial, c1StoredDiagnostic]
  exact (C1_diagnostic_ranges_normalized _ _ hmem).1

/-- C10: getDiagnostics returns a fresh copy of the internal diagnostics
array: the returned reference is distinct from the internal one, its
contents equal the stored diagnostics at call time, mutating it does not
change the stored diagnostics, and diagnostics pushed afterwards do not
appear in the previously returned array. -/
theorem C10_getDiagnostics_fresh_copy (heap : List (List Diagnostic)) (diagRef : Nat)
    (v : List Diagnostic) (d : Diagnostic) (href : diagRef < heap.length) :
    (JSHeap.getDiagnostics heap diagRef).1 ≠ diagRef ∧
    JSHeap.readArr (JSHeap.getDiagnostics heap diagRef).2
        (JSHeap.getDiagnostics heap diagRef).1 = JSHeap.readArr heap diagRef ∧
    JSHeap.readArr
        (JSHeap.writeArr (JSHeap.getDiagnostics heap diagRef).2
          (JSHeap.getDiagnostics heap diagRef).1 v) diagRef =
      JSHeap.readArr heap diagRef ∧
    JSHeap.readArr
        (JSHeap.pushDiagnostic (JSHeap.getDiagnostics heap diagRef).2 diagRef d)
        (JSHeap.getDiagnostics heap diagRef).1 =
      JSHeap.readArr heap diagRef := by
  simp only [JSHeap.getDiagnostics, JSHeap.pushDiagnostic, JSHeap.writeArr, JSHeap.readArr]
  refine ⟨by omega, ?_, ?_, ?_⟩
  · simp [List.getElem?_concat_length]
  · rw [List.getElem?_set_ne (by omega), List.getElem?_append_left href]
  · rw [List.getElem?_set_ne (by omega), List.getElem?_concat_length]
    simp

/-- Concrete instantiation of C10 at a one-array heap. -/
theorem C10_getDiagnostics_fresh_copy_witness :
    (JSHeap.getDiagnostics [[c1StoredDiagnostic]] 0).1 ≠ 0 ∧
    JSHeap.readArr (JSHeap.getDiagnostics [[c1StoredDiagnostic]] 0).2
        (JSHeap.getDiagnostics [[c1StoredDiagnostic]] 0).1 =
      JSHeap.readArr [[c1StoredDiagnostic]] 0 ∧
    JSHeap.readArr
        (JSHeap.writeArr (JSHeap.getDiagnostics [[c1StoredDiagnostic]] 0).2
          (JSHeap.getDiagnostics [[c1StoredDiagnostic]] 0).1 []) 0 =
      JSHeap.readArr [[c1StoredDiagnostic]] 0 ∧
    JSHeap.readArr
        (JSHeap.pushDiagnostic (JSHeap.getDiagnostics [[c1StoredDiagnostic]] 0).2 0
          c1StoredDiagnostic)
        (JSHeap.getDiagnostics [[c1StoredDiagnostic]] 0).1 =
      JSHeap.readArr [[c1StoredDiagnostic]] 0 :=
  C10_getDiagnostics_fresh_copy [[c1StoredDiagnostic]] 0 [] c1StoredDiagnostic
    (by simp)

/-- C5: with capacity 2, the sequence set a, set b, get a, set c leaves
exactly the keys a and c in recency order: the get refreshed the recency
of a, so the eviction triggered by inserting c removed b, the least
recently used entry, not the least recently inserted one. -/
theorem C5_lru_eviction_order {K V : Type} [DecidableEq K]
    (a b c : K) (va vb vc : V) (hab : a ≠ b) (hac : a ≠ c) (hbc : b ≠ c) :
    ((((((LRUCache.mk' (.finite 2) : LRUCache K V)).set a va).set b vb).get a).2.set
        c vc).cache.map Prod.fst = [a, c] := by
  simp [LRUCache.mk', LRUCache.normalizeCapacity, LRUCache.set, LRUCache.get,
    LRUCache.mapHas, LRUCache.mapGet, LRUCache.mapDelete, LRUCache.mapSet,
    LRUCache.evictIfNeeded, hab, hac, hbc, Ne.symm hab, Ne.symm hac, Ne.symm hbc]

/-- Concrete instantiation of C5 at natural-number keys. -/
theorem C5_lru_eviction_order_witness :
    ((((((LRUCache.mk' (.finite 2) : LRUCache Nat Nat)).set 0 10).set 1 11).get 0).2.set
        2 12).cache.map Prod.fst = [0, 2] :=
  C5_lru_eviction_order 0 1 2 10 11 12 (by decide) (by decide) (by decide)

namespace FreeMarkerStaticAnalyzer

theorem mem_addDiagnostic_code (sev : Severity) (m : String) (rg : Option JSRange)
    (c : Option String) (s : String) (r : ErrorReporter.State) (d : Diagnostic)
    (hd : d ∈ (ErrorReporter.addDiagnostic sev m rg c s r).diagnostics) :
    d ∈ r.diagnostics ∨ d.code = c := by
  unfold ErrorReporter.addDiagnostic at hd
  split_ifs at hd
  · exact Or.inl hd
  · simp only [List.mem_append, List.mem_singleton] at hd
    rcases hd with h | h
    · exact Or.inl h
    · subst h
      exact Or.inr rfl

theorem checkBasicSyntax_codes (content : List Char) (r : ErrorReporter.State) :
    ∀ d ∈ (checkBasicSyntax content r).diagnostics,
      d ∈ r.diagnostics ∨ d.code = some "FTL1005" := by
  unfold checkBasicSyntax
  generalize interpolationStarts content 0 = idxs
  induction idxs generalizing r with
  | nil => intro d hd; exact Or.inl hd
  | cons idx rest ih =>
      intro d hd
      simp only [List.foldl_cons] at hd
      rcases ih _ d hd with hmem | hcode
      · by_cases hb : hasCloseBraceFrom content idx = true
        · rw [if_pos hb] at hmem
          exact Or.inl hmem
        · rw [if_neg hb] at hmem
          exact mem_addDiagnostic_code _ _ _ _ _ _ d hmem
      · exact Or.inr hcode

theorem normalize_internalErrorRange :
    ErrorReporter.normalizeRange (some internalErrorRange) =
      { start := { line := 1, character := 1, offset := 0 }
        stop := { line := 1, character := 1, offset := 0 } } := by
  decide

end FreeMarkerStaticAnalyzer

/-- C2: the analyze control flow catches every phase failure: whenever the
lexing phase or the semantic phase raises (the parse phase has its own
handler), the catch-all appends exactly one error diagnostic anchored at
line 1 character 1 offset 0 with no code, and returns a result with a
null ast and the empty SemanticInfo, so the call never throws. -/
theorem C2_analyze_never_throws {AST : Type} (template : List Char)
    (lexPhase : Except String Unit) (parsePhase : Except String AST)
    (semanticPhase : AST → Except String SemanticInfo) (r : ErrorReporter.State)
    (e : String)
    (h : lexPhase = .error e ∨
      (lexPhase = .ok () ∧ ∃ a, parsePhase = .ok a ∧ semanticPhase a = .error e)) :
    (FreeMarkerStaticAnalyzer.analyze template lexPhase parsePhase semanticPhase r).1.ast
        = none ∧
    (FreeMarkerStaticAnalyzer.analyze template lexPhase parsePhase semanticPhase r).1.semanticInfo
        = emptySemanticInfo ∧
    (FreeMarkerStaticAnalyzer.analyze template lexPhase parsePhase semanticPhase r).1.diagnostics
        = (FreeMarkerStaticAnalyzer.checkBasicSyntax template (ErrorReporter.clear r)).diagnostics ++
          [{ severity := .error, message := "Analysis failed: " ++ e
             range := { start := { line := 1, character := 1, offset := 0 }
                        stop := { line := 1, character := 1, offset := 0 } }
             code := none, source := "FreeMarker" }] := by
  rcases h with h | ⟨hlex, a, hparse, hsem⟩
  · subst h
    refine ⟨rfl, rfl, ?_⟩
    simp [FreeMarkerStaticAnalyzer.analyze, FreeMarkerStaticAnalyzer.internalFailure,
      ErrorReporter.addError, ErrorReporter.addDiagnostic,
      FreeMarkerStaticAnalyzer.normalize_internalErrorRange]
  · subst hlex
    subst hparse
    refine ⟨?_, ?_, ?_⟩ <;>
    simp [FreeMarkerStaticAnalyzer.analyze, hsem,
      FreeMarkerStaticAnalyzer.internalFailure,
      ErrorReporter.addError, ErrorReporter.addDiagnostic,
      FreeMarkerStaticAnalyzer.normalize_internalErrorRange]

/-- Concrete instantiation of C2: a semantic phase that raises yields the
single (1,1)-anchored internal diagnostic and an empty result. -/
theorem C2_analyze_never_throws_witness :
    (@FreeMarkerStaticAnalyzer.analyze Unit [] (.ok ()) (.ok ())
        (fun _ => .error "boom") ErrorReporter.initial).1.ast = none ∧
    (@FreeMarkerStaticAnalyzer.analyze Unit [] (.ok ()) (.ok ())
        (fun _ => .error "boom") ErrorReporter.initial).1.semanticInfo = emptySemanticInfo ∧
    (@FreeMarkerStaticAnalyzer.analyze Unit [] (.ok ()) (.ok ())
        (fun _ => .error "boom") ErrorReporter.initial).1.diagnostics
      = (FreeMarkerStaticAnalyzer.checkBasicSyntax []
          (ErrorReporter.clear ErrorReporter.initial)).diagnostics ++
        [{ severity := .error, message := "Analysis failed: " ++ "boom"
           range := { start := { line := 1, character := 1, offset := 0 }
                      stop := { line := 1, character := 1, offset := 0 } }
           code := none, source := "FreeMarker" }] :=
  C2_analyze_never_throws [] (.ok ()) (.ok ()) (fun _ => .error "boom")
    ErrorReporter.initial "boom" (Or.inr ⟨rfl, (), rfl, rfl⟩)

/-- C3: every diagnostic that the analyze control flow can emit carries
code FTL1005 (unclosed interpolation), FTL1001 (syntax error) or no code
at all; in particular no run of analyze, for any input or phase outcome,
ever emits a diagnostic with code FTL4001. -/
theorem C3_analyze_never_emits_ftl4001 {AST : Type} (template : List Char)
    (lexPhase : Except String Unit) (parsePhase : Except String AST)
    (semanticPhase : AST → Except String SemanticInfo) (r : ErrorReporter.State)
    (d : Diagnostic)
    (hd : d ∈ (FreeMarkerStaticAnalyzer.analyze template lexPhase parsePhase
      semanticPhase r).1.diagnostics) :
    (d.code = some "FTL1005" ∨ d.code = some "FTL1001" ∨ d.code = none) ∧
      d.code ≠ some "FTL4001" := by
  have base : ∀ d ∈ (FreeMarkerStaticAnalyzer.checkBasicSyntax template
      (ErrorReporter.clear r)).diagnostics, d.code = some "FTL1005" := by
    intro d hd
    rcases FreeMarkerStaticAnalyzer.checkBasicSyntax_codes template
        (ErrorReporter.clear r) d hd with hmem | hcode
    · simp [ErrorReporter.clear] at hmem
    · exact hcode
  have main : d.code = some "FTL1005" ∨ d.code = some "FTL1001" ∨ d.code = none := by
    cases lexPhase with
    | error e =>
        simp only [FreeMarkerStaticAnalyzer.analyze,
          FreeMarkerStaticAnalyzer.internalFailure] at hd
        rcases FreeMarkerStaticAnalyzer.mem_addDiagnostic_code _ _ _ _ _ _ d hd with h1 | h1
        · exact Or.inl (base d h1)
        · exact Or.inr (Or.inr h1)
    | ok u =>
        cases parsePhase with
        | error e =>
            simp only [FreeMarkerStaticAnalyzer.analyze] at hd
            rcases FreeMarkerStaticAnalyzer.mem_addDiagnostic_code _ _ _ _ _ _ d hd with h1 | h1
            · exact Or.inl (base d h1)
            · exact Or.inr (Or.inl h1)
        | ok a =>
            cases hsem : semanticPhase a with
            | error e =>
                simp only [FreeMarkerStaticAnalyzer.analyze, hsem,
                  FreeMarkerStaticAnalyzer.internalFailure] at hd
                rcases FreeMarkerStaticAnalyzer.mem_addDiagnostic_code _ _ _ _ _ _ d hd
                  with h1 | h1
                · exact Or.inl (base d h1)
                · exact Or.inr (Or.inr h1)
            | ok info =>
                simp only [FreeMarkerStaticAnalyzer.analyze, hsem] at hd
                exact Or.inl (base d hd)
  refine ⟨main, ?_⟩
  rcases main with h | h | h <;> simp [h]


/-- Concrete instantiation of C3: the diagnostic produced by a failing
lexing phase has no code, hence is not an FTL4001. -/
theorem C3_analyze_never_emits_ftl4001_witness :
    (({ severity := .error, message := "Analysis failed: " ++ "boom"
        range := { start := { line := 1, character := 1, offset := 0 }
                   stop := { line := 1, character := 1, offset := 0 } }
        code := none, source := "FreeMarker" } : Diagnostic).code = some "FTL1005" ∨
     ({ severity := .error, message := "Analysis failed: " ++ "boom"
        range := { start := { line := 1, character := 1, offset := 0 }
                   stop := { line := 1, character := 1, offset := 0 } }
        code := none, source := "FreeMarker" } : Diagnostic).code = some "FTL1001" ∨
     ({ severity := .error, message := "Analysis failed: " ++ "boom"
        range := { start := { line := 1, character := 1, offset := 0 }
                   stop := { line := 1, character := 1, offset := 0 } }
        code := none, source := "FreeMarker" } : Diagnostic).code = none) ∧
    ({ severity := .error, message := "Analysis failed: " ++ "boom"
       range := { start := { line := 1, character := 1, offset := 0 }
                  stop := { line := 1, character := 1, offset := 0 } }
       code := none, source := "FreeMarker" } : Diagnostic).code ≠ some "FTL4001" :=
  @C3_analyze_never_emits_ftl4001 Unit [] (.error "boom") (.ok ())
    (fun _ => .ok emptySemanticInfo) ErrorReporter.initial _
    (by simp [FreeMarkerStaticAnalyzer.analyze, FreeMarkerStaticAnalyzer.internalFailure,
      FreeMarkerStaticAnalyzer.checkBasicSyntax, FreeMarkerStaticAnalyzer.interpolationStarts,
      ErrorReporter.clear, ErrorReporter.initial, ErrorReporter.addError,
      ErrorReporter.addDiagnostic, FreeMarkerStaticAnalyzer.normalize_internalErrorRange])

namespace FreeMarkerLexer

@[simp] theorem advancePos_content (st : LexState) : (advancePos st).content = st.content := rfl

@[simp] theorem advancePos_position (st : LexState) :
    (advancePos st).position = st.position + 1 := rfl

@[simp] theorem advancePos_inDirective (st : LexState) :
    (advancePos st).inDirective = st.inDirective := rfl

@[simp] theorem addToken_content (t : TokenType) (v : List Char) (st : LexState) :
    (addToken t v st).content = st.content := rfl

@[simp] theorem addToken_position (t : TokenType) (v : List Char) (st : LexState) :
    (addToken t v st).position = st.position := rfl

@[simp] theorem addToken_inDirective (t : TokenType) (v : List Char) (st : LexState) :
    (addToken t v st).inDirective = st.inDirective := rfl

theorem scanCommentLoopGo_content (fuel : Nat) : ∀ st value,
    (scanCommentLoopGo fuel st value).1.content = st.content := by
  induction fuel with
  | zero => intro st value; rfl
  | succ n ih =>
      intro st value
      simp only [scanCommentLoopGo]
      split_ifs <;> first | rfl | (rw [ih]; rfl)

theorem scanCommentLoopGo_pos (fuel : Nat) : ∀ st value,
    st.position ≤ (scanCommentLoopGo fuel st value).1.position := by
  induction fuel with
  | zero => intro st value; exact le_refl _
  | succ n ih =>
      intro st value
      simp only [scanCommentLoopGo]
      split_ifs <;>
        first
        | exact le_refl _
        | simp only [advancePos_position]; omega
        | exact le_trans (by simp only [advancePos_position]; omega) (ih _ _)

theorem scanStringLoopGo_content (quote : Char) (fuel : Nat) : ∀ st value,
    (scanStringLoopGo quote fuel st value).1.content = st.content := by
  induction fuel with
  | zero => intro st value; rfl
  | succ n ih =>
      intro st value
      simp only [scanStringLoopGo]
      split_ifs <;> first | rfl | (rw [ih]; rfl)

theorem scanStringLoopGo_pos (quote : Char) (fuel : Nat) : ∀ st value,
    st.position ≤ (scanStringLoopGo quote fuel st value).1.position := by
  induction fuel with
  | zero => intro st value; exact le_refl _
  | succ n ih =>
      intro st value
      simp only [scanStringLoopGo]
      split_ifs <;>
        first
        | exact le_refl _
        | exact le_trans (by simp only [advancePos_position]; omega) (ih _ _)

theorem digitRunGo_content (fuel : Nat) : ∀ st value,
    (digitRunGo fuel st value).1.content = st.content := by
  induction fuel with
  | zero => intro st value; rfl
  | succ n ih =>
      intro st value
      simp only [digitRunGo]
      split_ifs <;> first | rfl | (rw [ih]; rfl)

theorem digitRunGo_pos (fuel : Nat) : ∀ st value,
    st.position ≤ (digitRunGo fuel st value).1.position := by
  induction fuel with
  | zero => intro st value; exact le_refl _
  | succ n ih =>
      intro st value
      simp only [digitRunGo]
      split_ifs <;>
        first
        | exact le_refl _
        | exact le_trans (by simp only [advancePos_position]; omega) (ih _ _)

theorem identRunGo_content (fuel : Nat) : ∀ st value,
    (identRunGo fuel st value).1.content = st.content := by
  induction fuel with
  | zero => intro st value; rfl
  | succ n ih =>
      intro st value
      simp only [identRunGo]
      split_ifs <;> first | rfl | (rw [ih]; rfl)

theorem identRunGo_pos (fuel : Nat) : ∀ st value,
    st.position ≤ (identRunGo fuel st value).1.position := by
  induction fuel with
  | zero => intro st value; exact le_refl _
  | succ n ih =>
      intro st value
      simp only [identRunGo]
      split_ifs <;>
        first
        | exact le_refl _
        | exact le_trans (by simp only [advancePos_position]; omega) (ih _ _)

theorem textRunGo_content (fuel : Nat) : ∀ st value,
    (textRunGo fuel st value).1.content = st.content := by
  induction fuel with
  | zero => intro st value; rfl
  | succ n ih =>
      intro st value
      simp only [textRunGo]
      split_ifs <;> first | rfl | (rw [ih]; rfl)

theorem textRunGo_pos (fuel : Nat) : ∀ st value,
    st.position ≤ (textRunGo fuel st value).1.position := by
  induction fuel with
  | zero => intro st value; exact le_refl _
  | succ n ih =>
      intro st value
      simp only [textRunGo]
      split_ifs <;>
        first
        | exact le_refl _
        | exact le_trans (by simp only [advancePos_position]; omega) (ih _ _)

theorem closeTagNameGo_content (fuel : Nat) : ∀ st value,
    (closeTagNameGo fuel st value).1.content = st.content := by
  induction fuel with
  | zero => intro st value; rfl
  | succ n ih =>
      intro st value
      simp only [closeTagNameGo]
      split_ifs <;> first | rfl | (rw [ih]; rfl)

theorem closeTagNameGo_pos (fuel : Nat) : ∀ st value,
    st.position ≤ (closeTagNameGo fuel st value).1.position := by
  induction fuel with
  | zero => intro st value; exact le_refl _
  | succ n ih =>
      intro st value
      simp only [closeTagNameGo]
      split_ifs <;>
        first
        | exact le_refl _
        | exact le_trans (by simp only [advancePos_position]; omega) (ih _ _)

theorem closeTagNameGo_inDirective (fuel : Nat) : ∀ st value,
    (closeTagNameGo fuel st value).1.inDirective = st.inDirective := by
  induction fuel with
  | zero => intro st value; rfl
  | succ n ih =>
      intro st value
      simp only [closeTagNameGo]
      split_ifs <;> first | rfl | (rw [ih]; rfl)

theorem addToken_mono (t : TokenType) (v : List Char) : Mono (addToken t v) := by
  intro st
  exact ⟨rfl, le_refl _⟩

theorem scanSquareBracket_mono : Mono scanSquareBracket := by
  intro st
  simp only [scanSquareBracket]
  split_ifs <;> exact ⟨rfl, by simp only [addToken_position, advancePos_position]; omega⟩

theorem scanDot_mono : Mono scanDot := by
  intro st
  simp only [scanDot]
  split_ifs <;> exact ⟨rfl, by simp only [addToken_position, advancePos_position]; omega⟩

theorem scanPlus_mono : Mono scanPlus := by
  intro st
  simp only [scanPlus]
  split_ifs <;> exact ⟨rfl, by simp only [addToken_position, advancePos_position]; omega⟩

theorem scanMinus_mono : Mono scanMinus := by
  intro st
  simp only [scanMinus]
  split_ifs <;> exact ⟨rfl, by simp only [addToken_position, advancePos_position]; omega⟩

theorem scanMultiply_mono : Mono scanMultiply := by
  intro st
  simp only [scanMultiply]
  split_ifs <;> exact ⟨rfl, by simp only [addToken_position, advancePos_position]; omega⟩

theorem scanModulo_mono : Mono scanModulo := by
  intro st
  simp only [scanModulo]
  split_ifs <;> exact ⟨rfl, by simp only [addToken_position, advancePos_position]; omega⟩

theorem scanEqual_mono : Mono scanEqual := by
  intro st
  simp only [scanEqual]
  split_ifs <;> exact ⟨rfl, by simp only [addToken_position, advancePos_position]; omega⟩

theorem scanExclamation_mono : Mono scanExclamation := by
  intro st
  simp only [scanExclamation]
  split_ifs <;> exact ⟨rfl, by simp only [addToken_position, advancePos_position]; omega⟩

theorem scanAmpersand_mono : Mono scanAmpersand := by
  intro st
  simp only [scanAmpersand]
  split_ifs <;> exact ⟨rfl, by simp only [addToken_position, advancePos_position]; omega⟩

theorem scanPipe_mono : Mono scanPipe := by
  intro st
  simp only [scanPipe]
  split_ifs <;> exact ⟨rfl, by simp only [addToken_position, advancePos_position]; omega⟩

theorem scanGreaterThan_mono : Mono scanGreaterThan := by
  intro st
  simp only [scanGreaterThan]
  split_ifs
  · exact ⟨rfl, by simp only [addToken_position, advancePos_position]; omega⟩
  · exact ⟨rfl, le_refl _⟩
  · exact ⟨rfl, le_refl _⟩

theorem pos_le_advance {n : Nat} {s : LexState} (h : n ≤ s.position) :
    n ≤ (advancePos s).position := by
  simp only [advancePos_position]
  omega

theorem pos_le_digitRun {n : Nat} {fuel : Nat} {s : LexState} {v : List Char}
    (h : n ≤ s.position) : n ≤ (digitRunGo fuel s v).1.position :=
  le_trans h (digitRunGo_pos _ _ _)

theorem pos_le_identRun {n : Nat} {fuel : Nat} {s : LexState} {v : List Char}
    (h : n ≤ s.position) : n ≤ (identRunGo fuel s v).1.position :=
  le_trans h (identRunGo_pos _ _ _)

theorem pos_le_textRun {n : Nat} {fuel : Nat} {s : LexState} {v : List Char}
    (h : n ≤ s.position) : n ≤ (textRunGo fuel s v).1.position :=
  le_trans h (textRunGo_pos _ _ _)

theorem pos_le_closeTag {n : Nat} {fuel : Nat} {s : LexState} {v : List Char}
    (h : n ≤ s.position) : n ≤ (closeTagNameGo fuel s v).1.position :=
  le_trans h (closeTagNameGo_pos _ _ _)

theorem pos_le_commentLoop {n : Nat} {fuel : Nat} {s : LexState} {v : List Char}
    (h : n ≤ s.position) : n ≤ (scanCommentLoopGo fuel s v).1.position :=
  le_trans h (scanCommentLoopGo_pos _ _ _)

theorem pos_le_stringLoop {n : Nat} {quote : Char} {fuel : Nat} {s : LexState}
    {v : List Char} (h : n ≤ s.position) :
    n ≤ (scanStringLoopGo quote fuel s v).1.position :=
  le_trans h (scanStringLoopGo_pos _ _ _ _)

theorem scanComment_mono : Mono scanComment := by
  intro st
  simp only [scanComment]
  refine ⟨?_, ?_⟩
  · rw [addToken_content, scanCommentLoopGo_content]
  · simp only [addToken_position]
    apply pos_le_commentLoop
    exact le_refl _

theorem scanString_mono (quote : Char) : Mono (scanString quote) := by
  intro st
  simp only [scanString]
  constructor
  · split_ifs <;>
      (try dsimp only) <;>
      simp only [addToken_content, advancePos_content, scanStringLoopGo_content]
  · split_ifs
    · dsimp only
      simp only [addToken_position]
      apply pos_le_advance
      apply pos_le_stringLoop
      exact le_refl _
    · simp only [addToken_position]
      apply pos_le_stringLoop
      exact le_refl _

theorem scanNumber_content (st : LexState) : (scanNumber st).content = st.content := by
  simp only [scanNumber]
  split_ifs <;>
    (try dsimp only) <;>
    simp only [addToken_content, digitRunGo_content, advancePos_content]

theorem scanNumber_pos (st : LexState) : st.position ≤ (scanNumber st).position := by
  simp only [scanNumber]
  split_ifs <;> (try dsimp only) <;> simp only [addToken_position]
  · apply pos_le_digitRun
    apply pos_le_advance
    apply pos_le_advance
    apply pos_le_digitRun
    apply pos_le_advance
    apply pos_le_digitRun
    exact le_refl _
  · apply pos_le_digitRun
    apply pos_le_advance
    apply pos_le_digitRun
    apply pos_le_advance
    apply pos_le_digitRun
    exact le_refl _
  · apply pos_le_digitRun
    apply pos_le_advance
    apply pos_le_digitRun
    exact le_refl _
  · apply pos_le_digitRun
    apply pos_le_advance
    apply pos_le_advance
    apply pos_le_digitRun
    exact le_refl _
  · apply pos_le_digitRun
    apply pos_le_advance
    apply pos_le_digitRun
    exact le_refl _
  · apply pos_le_digitRun
    exact le_refl _

theorem scanNumber_mono : Mono scanNumber :=
  fun st => ⟨scanNumber_content st, scanNumber_pos st⟩

theorem scanIdentifier_mono : Mono scanIdentifier := by
  intro st
  simp only [scanIdentifier]
  refine ⟨?_, ?_⟩
  · rw [addToken_content, identRunGo_content]
  · simp only [addToken_position]
    apply pos_le_identRun
    exact le_refl _

theorem scanText_mono : Mono scanText := by
  intro st
  simp only [scanText]
  refine ⟨?_, ?_⟩
  · rw [addToken_content, textRunGo_content]
  · simp only [addToken_position]
    apply pos_le_textRun
    exact le_refl _

theorem scanDollar_mono : Mono scanDollar := by
  intro st
  simp only [scanDollar]
  split_ifs
  · exact ⟨rfl, by simp only [addToken_position, advancePos_position]; omega⟩
  · exact scanText_mono st

theorem scanLessThan_mono : Mono scanLessThan := by
  intro st
  simp only [scanLessThan]
  split_ifs
  · obtain ⟨hc, hp⟩ := scanComment_mono (advancePos (advancePos (advancePos st)))
    refine ⟨by rw [hc]; rfl, ?_⟩
    simp only [advancePos_position] at hp
    omega
  · exact ⟨rfl, Nat.le_succ _⟩
  · constructor
    · rw [addToken_content, closeTagNameGo_content, addToken_content]
      rfl
    · simp only [addToken_position]
      apply pos_le_closeTag
      simp only [addToken_position]
      exact Nat.le_add_right _ 2
  · exact ⟨rfl, Nat.le_succ _⟩
  · exact ⟨rfl, by simp only [addToken_position, advancePos_position]; omega⟩
  · exact ⟨rfl, le_refl _⟩

theorem scanToken_advances (st : LexState) :
    (scanToken st).content = st.content ∧ st.position < (scanToken st).position := by
  have after : ∀ f, Mono f →
      (f (advancePos st)).content = st.content ∧ st.position < (f (advancePos st)).position := by
    intro f hf
    obtain ⟨hc, hp⟩ := hf (advancePos st)
    refine ⟨by rw [hc]; rfl, ?_⟩
    simp only [advancePos_position] at hp
    omega
  have addTok : ∀ t v, Mono (addToken t v) := fun t v s => ⟨rfl, le_refl _⟩
  unfold scanToken
  dsimp only
  split
  · exact after _ (addTok _ _)
  · exact after _ (addTok _ _)
  · exact after _ (addTok _ _)
  · exact ⟨rfl, Nat.lt_succ_self _⟩
  · exact after _ (addTok _ _)
  · exact after _ (addTok _ _)
  · exact after _ (addTok _ _)
  · exact after _ (addTok _ _)
  · exact after _ scanSquareBracket_mono
  · exact after _ (addTok _ _)
  · exact after _ (addTok _ _)
  · exact after _ (addTok _ _)
  · exact after _ (addTok _ _)
  · exact after _ scanDot_mono
  · exact after _ (addTok _ _)
  · exact after _ (addTok _ _)
  · exact after _ scanPlus_mono
  · exact after _ scanMinus_mono
  · exact after _ scanMultiply_mono
  · exact after _ scanModulo_mono
  · exact after _ scanEqual_mono
  · exact after _ scanExclamation_mono
  · exact after _ scanAmpersand_mono
  · exact after _ scanPipe_mono
  · exact after _ scanLessThan_mono
  · exact after _ scanGreaterThan_mono
  · exact after _ scanDollar_mono
  · exact after _ (scanString_mono _)
  · exact after _ (scanString_mono _)
  · split_ifs
    · exact after _ scanNumber_mono
    · exact after _ scanIdentifier_mono
    · exact after _ scanText_mono

theorem scanTokensGo_consumes (fuel : Nat) : ∀ st,
    st.content.length - st.position < fuel →
    (scanTokensGo fuel st).content = st.content ∧
      st.content.length ≤ (scanTokensGo fuel st).position := by
  induction fuel with
  | zero => intro st h; omega
  | succ n ih =>
      intro st h
      simp only [scanTokensGo]
      split_ifs with h1
      · obtain ⟨hc, hp⟩ := scanToken_advances st
        obtain ⟨ihc, ihp⟩ := ih (scanToken st) (by rw [hc]; omega)
        rw [hc] at ihc
        rw [hc] at ihp
        exact ⟨ihc, ihp⟩
      · exact ⟨rfl, by omega⟩

end FreeMarkerLexer

/-- C6: tokenize is total (the embedding is a terminating function and the
main loop provably consumes the entire input, exiting through its
at-the-end test rather than the fuel bound), it never throws, its token
sequence always ends with an EOF token, and characters recognized by no
scanner case are emitted as TEXT (fallback) or ERROR (lone ampersand)
tokens instead of aborting. -/
theorem C6_tokenize_terminates_with_eof (content : List Char) :
    (FreeMarkerLexer.tokenize content).getLast?.map FreeMarkerLexer.Token.type
        = some .EOF ∧
    (FreeMarkerLexer.tokenizeRun content).content = content ∧
    content.length ≤ (FreeMarkerLexer.tokenizeRun content).position ∧
    (FreeMarkerLexer.tokenize [ '~' ]).map FreeMarkerLexer.Token.type = [.TEXT, .EOF] ∧
    (FreeMarkerLexer.tokenize [ '&' ]).map FreeMarkerLexer.Token.type = [.ERROR, .EOF] := by
  have hrun := FreeMarkerLexer.scanTokensGo_consumes (content.length + 1)
    (FreeMarkerLexer.initState content) (by simp [FreeMarkerLexer.initState])
  refine ⟨?_, ?_, ?_, by decide, by decide⟩
  · simp only [FreeMarkerLexer.tokenize, FreeMarkerLexer.addToken]
    rw [List.getLast?_concat]
    rfl
  · simpa [FreeMarkerLexer.tokenizeRun, FreeMarkerLexer.initState] using hrun.1
  · simpa [FreeMarkerLexer.tokenizeRun, FreeMarkerLexer.initState] using hrun.2

/-- C7 counterexample: after tokenizing the square-bracket directive
opening, the inDirective flag is still false, and consequently the bare
greater-than closing a square-bracket-opened directive is emitted as
GREATER_THAN, not DIRECTIVE_END. The claim states the flag becomes true
on that opening. -/
theorem C7_counterexample :
    (FreeMarkerLexer.tokenizeRun [ '[', '#' ]).inDirective = false ∧
    (FreeMarkerLexer.tokenize [ '[', '#', 'x', '>' ]).map FreeMarkerLexer.Token.type =
      [.DIRECTIVE_START, .IDENTIFIER, .GREATER_THAN, .EOF] := by
  decide

/-- C7 (amended): the inDirective flag becomes true on the angle-bracket
openings: a non-comment hash after less-than, a closing-tag slash-hash,
and the at sign; the square-bracket scanner leaves the flag unchanged (so
the square-bracket openings never set it), a right bracket leaves it
unchanged (so it never clears it), and a bare greater-than is emitted as
DIRECTIVE_END and clears the flag exactly when the flag is set, and as
GREATER_THAN otherwise. -/
theorem C7_inDirective_toggles_amended (st : FreeMarkerLexer.LexState) :
    (FreeMarkerLexer.peek st = '#' →
      ¬(FreeMarkerLexer.peek (FreeMarkerLexer.advancePos st) = '-' ∧
        FreeMarkerLexer.peekNext (FreeMarkerLexer.advancePos st) = '-') →
      (FreeMarkerLexer.scanLessThan st).inDirective = true) ∧
    (FreeMarkerLexer.peek st = '@' →
      (FreeMarkerLexer.scanLessThan st).inDirective = true) ∧
    (FreeMarkerLexer.peek st = '/' → FreeMarkerLexer.peekNext st = '#' →
      (FreeMarkerLexer.scanLessThan st).inDirective = true) ∧
    ((FreeMarkerLexer.scanSquareBracket st).inDirective = st.inDirective) ∧
    (FreeMarkerLexer.currentChar st = ']' →
      (FreeMarkerLexer.scanToken st).inDirective = st.inDirective) ∧
    (FreeMarkerLexer.peek st ≠ '=' → st.inDirective = true →
      (FreeMarkerLexer.scanGreaterThan st).inDirective = false ∧
      (FreeMarkerLexer.scanGreaterThan st).tokens.getLast?.map
        FreeMarkerLexer.Token.type = some .DIRECTIVE_END) ∧
    (FreeMarkerLexer.peek st ≠ '=' → st.inDirective = false →
      (FreeMarkerLexer.scanGreaterThan st).inDirective = false ∧
      (FreeMarkerLexer.scanGreaterThan st).tokens.getLast?.map
        FreeMarkerLexer.Token.type = some .GREATER_THAN) := by
  refine ⟨?_, ?_, ?_, ?_, ?_, ?_, ?_⟩
  · intro h1 h2
    simp only [FreeMarkerLexer.scanLessThan]
    rw [if_pos h1, if_neg h2]
    rfl
  · intro h
    simp only [FreeMarkerLexer.scanLessThan]
    rw [if_neg (by simp [h]), if_neg (by simp [h]), if_pos h]
    rfl
  · intro h1 h2
    simp only [FreeMarkerLexer.scanLessThan]
    rw [if_neg (by simp [h1]), if_pos ⟨h1, h2⟩]
    simp only [FreeMarkerLexer.addToken_inDirective,
      FreeMarkerLexer.closeTagNameGo_inDirective]
  · simp only [FreeMarkerLexer.scanSquareBracket]
    split_ifs <;> rfl
  · intro h
    unfold FreeMarkerLexer.scanToken
    dsimp only
    rw [h]
    rfl
  · intro h hdir
    simp only [FreeMarkerLexer.scanGreaterThan]
    rw [if_neg h, if_pos hdir]
    refine ⟨rfl, ?_⟩
    simp only [FreeMarkerLexer.addToken]
    rw [List.getLast?_concat]
    rfl
  · intro h hdir
    simp only [FreeMarkerLexer.scanGreaterThan]
    rw [if_neg h, if_neg (by simp [hdir])]
    refine ⟨by simp only [FreeMarkerLexer.addToken_inDirective]; exact hdir, ?_⟩
    simp only [FreeMarkerLexer.addToken]
    rw [List.getLast?_concat]
    rfl

/-- Concrete instantiation of the amended C7 at one state per clause. -/
theorem C7_inDirective_toggles_amended_witness :
    (FreeMarkerLexer.scanLessThan
      { content := [ '<', '#', 'i' ], position := 1, line := 1, character := 2,
        tokens := [], inDirective := false }).inDirective = true ∧
    (FreeMarkerLexer.scanLessThan
      { content := [ '<', '@' ], position := 1, line := 1, character := 2,
        tokens := [], inDirective := false }).inDirective = true ∧
    (FreeMarkerLexer.scanLessThan
      { content := [ '<', '/', '#' ], position := 1, line := 1, character := 2,
        tokens := [], inDirective := false }).inDirective = true ∧
    (FreeMarkerLexer.scanSquareBracket
      { content := [ '[', '#' ], position := 1, line := 1, character := 2,
        tokens := [], inDirective := false }).inDirective = false ∧
    (FreeMarkerLexer.scanToken
      { content := [ ']' ], position := 0, line := 1, character := 1,
        tokens := [], inDirective := true }).inDirective = true ∧
    (FreeMarkerLexer.scanGreaterThan
      { content := [ '>' ], position := 1, line := 1, character := 2,
        tokens := [], inDirective := true }).inDirective = false ∧
    (FreeMarkerLexer.scanGreaterThan
      { content := [ '>' ], position := 1, line := 1, character := 2,
        tokens := [], inDirective := false }).tokens.getLast?.map
      FreeMarkerLexer.Token.type = some .GREATER_THAN :=
  ⟨(C7_inDirective_toggles_amended _).1 (by decide) (by decide),
   (C7_inDirective_toggles_amended _).2.1 (by decide),
   (C7_inDirective_toggles_amended _).2.2.1 (by decide) (by decide),
   (C7_inDirective_toggles_amended _).2.2.2.1,
   (C7_inDirective_toggles_amended _).2.2.2.2.1 (by decide),
   ((C7_inDirective_toggles_amended _).2.2.2.2.2.1 (by decide) (by decide)).1,
   ((C7_inDirective_toggles_amended _).2.2.2.2.2.2 (by decide) (by decide)).2⟩

namespace SemanticAnalyzer

theorem analyzeBookkeeping_inv (s : BookState) (c : Option String)
    (h : s.processing = []) :
    (∀ t ∈ (analyzeBookkeeping s c).1, disjointPC t) ∧
    (analyzeBookkeeping s c).2.processing = [] := by
  obtain ⟨pr, co, cd⟩ := s
  simp only at h
  subst h
  cases c with
  | none =>
      constructor
      · intro t ht
        simp [analyzeBookkeeping] at ht
        rcases ht with rfl | rfl <;>
          (intro x hx; simp at hx)
      · rfl
  | some p =>
      constructor
      · intro t ht
        simp [analyzeBookkeeping, addPath, removePath] at ht
        rcases ht with rfl | rfl | rfl | rfl | rfl <;>
          (intro x hx; simp at hx)
      · simp [analyzeBookkeeping, addPath, removePath]

end SemanticAnalyzer

/-- C8: over any sequence of analyze calls on one SemanticAnalyzer
instance, starting from the fresh-instance state, no normalized path is
ever in both the processing set and the completed set at the same time;
every intermediate state of the bookkeeping is covered, and nested
analyses of imported or included files run on fresh instances with their
own (initially empty) sets, so the theorem covers those too. -/
theorem C8_processing_completed_disjoint (calls : List (Option String))
    (st : SemanticAnalyzer.BookState)
    (hmem : st ∈ SemanticAnalyzer.runBookkeeping SemanticAnalyzer.initialBook calls) :
    SemanticAnalyzer.disjointPC st := by
  have general : ∀ (cs : List (Option String)) (s : SemanticAnalyzer.BookState),
      s.processing = [] →
      ∀ t ∈ SemanticAnalyzer.runBookkeeping s cs, SemanticAnalyzer.disjointPC t := by
    intro cs
    induction cs with
    | nil =>
        intro s hs t hmem
        simp only [SemanticAnalyzer.runBookkeeping, List.mem_singleton] at hmem
        subst hmem
        intro x hx
        rw [hs] at hx
        exact List.not_mem_nil x hx.1
    | cons c rest ih =>
        intro s hs t hmem
        simp only [SemanticAnalyzer.runBookkeeping, List.mem_append] at hmem
        rcases hmem with hmem | hmem
        · exact (SemanticAnalyzer.analyzeBookkeeping_inv s c hs).1 t hmem
        · exact ih _ (SemanticAnalyzer.analyzeBookkeeping_inv s c hs).2 t hmem
  exact general calls SemanticAnalyzer.initialBook rfl st hmem

/-- Concrete instantiation of C8 at the final state of one analyze call. -/
theorem C8_processing_completed_disjoint_witness :
    SemanticAnalyzer.disjointPC
      { processing := [], completed := ["/project/a.ftl"], cacheDom := ["/project/a.ftl"] } :=
  C8_processing_completed_disjoint [some "/project/a.ftl"]
    { processing := [], completed := ["/project/a.ftl"], cacheDom := ["/project/a.ftl"] }
    (by decide)

namespace SemanticAnalyzer

theorem alookup_aset_self {α : Type} (k : String) (v : α) (l : List (String × α)) :
    alookup k (aset k v l) = some v := by
  induction l with
  | nil => simp [aset, alookup]
  | cons p rest ih =>
      by_cases h : p.1 = k
      · simp [aset, alookup, h]
      · simp [aset, alookup, h, ih]

theorem alookup_aset_isSome {α : Type} (k m : String) (v : α) (l : List (String × α))
    (h : (alookup m l).isSome) : (alookup m (aset k v l)).isSome := by
  induction l with
  | nil => simp [alookup] at h
  | cons p rest ih =>
      obtain ⟨a, b⟩ := p
      by_cases hp : a = k
      · subst hp
        simp only [aset, if_pos rfl]
        by_cases hm : a = m
        · simp [alookup, hm]
        · simp only [alookup, if_neg hm] at h ⊢
          exact h
      · simp only [aset, if_neg hp]
        by_cases hm : a = m
        · simp [alookup, hm]
        · simp only [alookup, if_neg hm] at h ⊢
          exact ih h

theorem currentFrame_setCurrentFrame (st : SAState) (f : Frame) :
    currentFrame (setCurrentFrame st f) = f := rfl

theorem declareMacro_mem (n : String) (ps : List String) (b : List Node) (st : SAState) :
    (alookup n (currentFrame (declareMacro n ps b st).1).macros).isSome := by
  unfold declareMacro
  cases halo : alookup n (currentFrame st).macros with
  | none =>
      simp only [currentFrame, setCurrentFrame, List.headD_cons]
      simp [alookup_aset_self]
  | some id =>
      cases hso : st.store[id]? with
      | some obj => simpa [hso, currentFrame] using congrArg Option.isSome halo
      | none => simpa [hso] using congrArg Option.isSome halo

theorem declareMacro_preserves (n : String) (ps : List String) (b : List Node)
    (st : SAState) (m : String) (h : (alookup m (currentFrame st).macros).isSome) :
    (alookup m (currentFrame (declareMacro n ps b st).1).macros).isSome := by
  unfold declareMacro
  cases halo : alookup n (currentFrame st).macros with
  | none =>
      simp only [currentFrame, setCurrentFrame, List.headD_cons]
      exact alookup_aset_isSome n m _ _ h
  | some id =>
      cases hso : st.store[id]? with
      | some obj => simpa [hso, currentFrame] using h
      | none => simpa [hso] using h

theorem declareFunction_preserves_macros (n : String) (ps : List String)
    (st : SAState) (m : String) (h : (alookup m (currentFrame st).macros).isSome) :
    (alookup m (currentFrame (declareFunction n ps st)).macros).isSome := by
  unfold declareFunction
  cases halo : alookup n (currentFrame st).functions with
  | none =>
      simpa [currentFrame, setCurrentFrame, List.headD_cons] using h
  | some prev =>
      simpa [halo, currentFrame, setCurrentFrame, List.headD_cons] using h

theorem declareFunction_mem (n : String) (ps : List String) (st : SAState) :
    (alookup n (currentFrame (declareFunction n ps st)).functions).isSome := by
  unfold declareFunction
  cases halo : alookup n (currentFrame st).functions with
  | none =>
      simp only [currentFrame, setCurrentFrame, List.headD_cons]
      simp [alookup_aset_self]
  | some prev =>
      simp only [halo, currentFrame, setCurrentFrame, List.headD_cons]
      simp [alookup_aset_self]

theorem declareFunction_preserves (n : String) (ps : List String)
    (st : SAState) (m : String) (h : (alookup m (currentFrame st).functions).isSome) :
    (alookup m (currentFrame (declareFunction n ps st)).functions).isSome := by
  unfold declareFunction
  cases halo : alookup n (currentFrame st).functions with
  | none =>
      simp only [currentFrame, setCurrentFrame, List.headD_cons]
      exact alookup_aset_isSome n m _ _ h
  | some prev =>
      simp only [halo, currentFrame, setCurrentFrame, List.headD_cons]
      exact alookup_aset_isSome n m _ _ h

theorem declareMacro_preserves_functions (n : String) (ps : List String) (b : List Node)
    (st : SAState) (m : String) (h : (alookup m (currentFrame st).functions).isSome) :
    (alookup m (currentFrame (declareMacro n ps b st).1).functions).isSome := by
  unfold declareMacro
  cases halo : alookup n (currentFrame st).macros with
  | none =>
      simpa [currentFrame, setCurrentFrame, List.headD_cons] using h
  | some id =>
      cases hso : st.store[id]? with
      | some obj => simpa [hso, currentFrame] using h
      | none => simpa [hso] using h

theorem predeclarePass_preserves_macro (body : List Node) (st : SAState) (m : String)
    (h : (alookup m (currentFrame st).macros).isSome) :
    (alookup m (currentFrame (predeclarePass body st)).macros).isSome := by
  induction body generalizing st with
  | nil => exact h
  | cons child rest ih =>
      simp only [predeclarePass, List.foldl_cons] at *
      cases child with
      | defMacro n ps b => exact ih _ (declareMacro_preserves n ps b st m h)
      | defFunction n ps b => exact ih _ (declareFunction_preserves_macros n ps st m h)
      | callMacro n params => exact ih _ h
      | interpolation e => exact ih _ h
      | textNode s => exact ih _ h

theorem predeclarePass_preserves_function (body : List Node) (st : SAState) (m : String)
    (h : (alookup m (currentFrame st).functions).isSome) :
    (alookup m (currentFrame (predeclarePass body st)).functions).isSome := by
  induction body generalizing st with
  | nil => exact h
  | cons child rest ih =>
      simp only [predeclarePass, List.foldl_cons] at *
      cases child with
      | defMacro n ps b => exact ih _ (declareMacro_preserves_functions n ps b st m h)
      | defFunction n ps b => exact ih _ (declareFunction_preserves n ps st m h)
      | callMacro n params => exact ih _ h
      | interpolation e => exact ih _ h
      | textNode s => exact ih _ h

theorem predeclarePass_mem_macro (body : List Node) (st : SAState)
    (n : String) (ps : List String) (b : List Node) (hmem : Node.defMacro n ps b ∈ body) :
    (alookup n (currentFrame (predeclarePass body st)).macros).isSome := by
  induction body generalizing st with
  | nil => cases hmem
  | cons child rest ih =>
      simp only [predeclarePass, List.foldl_cons] at *
      rcases List.mem_cons.mp hmem with heq | hmem'
      · subst heq
        exact predeclarePass_preserves_macro rest _ n (declareMacro_mem n ps b st)
      · cases child with
        | defMacro n2 ps2 b2 => exact ih _ hmem'
        | defFunction n2 ps2 b2 => exact ih _ hmem'
        | callMacro n2 params => exact ih _ hmem'
        | interpolation e => exact ih _ hmem'
        | textNode s => exact ih _ hmem'

theorem predeclarePass_mem_function (body : List Node) (st : SAState)
    (n : String) (ps : List String) (b : List Node)
    (hmem : Node.defFunction n ps b ∈ body) :
    (alookup n (currentFrame (predeclarePass body st)).functions).isSome := by
  induction body generalizing st with
  | nil => cases hmem
  | cons child rest ih =>
      simp only [predeclarePass, List.foldl_cons] at *
      rcases List.mem_cons.mp hmem with heq | hmem'
      · subst heq
        exact predeclarePass_preserves_function rest _ n (declareFunction_mem n ps st)
      · cases child with
        | defMacro n2 ps2 b2 => exact ih _ hmem'
        | defFunction n2 ps2 b2 => exact ih _ hmem'
        | callMacro n2 params => exact ih _ hmem'
        | interpolation e => exact ih _ hmem'
        | textNode s => exact ih _ hmem'

theorem Rel_refl (C : List String) (st : SAState) : Rel C st st :=
  ⟨fun _ h => h, fun _ h => Or.inl h, fun _ h => Or.inl h, id⟩

theorem Rel_trans {C : List String} {s1 s2 s3 : SAState}
    (h12 : Rel C s1 s2) (h23 : Rel C s2 s3) : Rel C s1 s3 := by
  obtain ⟨a12, b12, c12, d12⟩ := h12
  obtain ⟨a23, b23, c23, d23⟩ := h23
  refine ⟨fun m h => a23 m (a12 m h), ?_, ?_, fun h => d23 (d12 h)⟩
  · intro d hd
    rcases b23 d hd with h | h
    · exact b12 d h
    · exact Or.inr h
  · intro n hn
    rcases c23 n hn with h | h
    · exact c12 n h
    · exact Or.inr h

theorem Rel_analyzeExpression (C : List String) (e : Expr) (st : SAState) :
    Rel C st (analyzeExpression e st) := by
  cases e with
  | lit t => exact Rel_refl C st
  | var n =>
      simp only [analyzeExpression]
      split
      · exact Rel_refl C st
      · refine ⟨fun m h => h, ?_, fun x hx => Or.inl hx, fun h => h⟩
        intro d hd
        rcases List.mem_append.mp hd with h | h
        · exact Or.inl h
        · rcases List.mem_singleton.mp h with rfl
          exact Or.inr rfl

theorem Rel_exprFold (C : List String) (params : List (Option String × Expr))
    (st : SAState) :
    Rel C st (params.foldl (fun acc p => analyzeExpression p.2 acc) st) := by
  induction params generalizing st with
  | nil => exact Rel_refl C st
  | cons p rest ih =>
      rw [List.foldl_cons]
      exact Rel_trans (Rel_analyzeExpression C p.2 st) (ih _)

theorem Rel_declareMacro (C : List String) (nm : String) (ps : List String)
    (body : List Node) (st : SAState) (hb : ∀ n ∈ callNamesList body, n ∈ C) :
    Rel C st (declareMacro nm ps body st).1 := by
  cases halo : alookup nm (currentFrame st).macros with
  | none =>
      simp only [declareMacro, halo]
      refine ⟨?_, fun d hd => Or.inl hd, fun n hn => Or.inl hn, ?_⟩
      · intro m h
        exact alookup_aset_isSome nm m _ _ h
      · intro hS obj hobj
        rcases List.mem_append.mp hobj with h | h
        · exact hS obj h
        · rcases List.mem_singleton.mp h with rfl
          intro n hn
          exact hb n (by simpa [callNamesOpt] using hn)
  | some id =>
      cases hso : st.store[id]? with
      | some obj =>
          simp only [declareMacro, halo, hso]
          refine ⟨fun m h => h, fun d hd => Or.inl hd, fun n hn => Or.inl hn, ?_⟩
          intro hS obj' hobj'
          rcases List.mem_or_eq_of_mem_set hobj' with h | h
          · exact hS obj' h
          · subst h
            intro n hn
            exact hb n (by simpa [callNamesOpt] using hn)
      | none =>
          simp only [declareMacro, halo, hso]
          exact Rel_refl C st

theorem Rel_declareFunction (C : List String) (nm : String) (ps : List String)
    (st : SAState) : Rel C st (declareFunction nm ps st) := by
  cases halo : alookup nm (currentFrame st).functions with
  | none =>
      simp only [declareFunction, halo]
      exact ⟨fun m h => h, fun d hd => Or.inl hd, fun n hn => Or.inl hn, fun h => h⟩
  | some prev =>
      simp only [declareFunction, halo]
      exact ⟨fun m h => h, fun d hd => Or.inl hd, fun n hn => Or.inl hn, fun h => h⟩

theorem Rel_defer (C : List String) (nm : String) (st0 : SAState) (hn : nm ∈ C) :
    Rel C st0 { st0 with unresolved := st0.unresolved ++ [nm] } := by
  refine ⟨fun m h => h, fun d hd => Or.inl hd, ?_, fun h => h⟩
  intro x hx
  rcases List.mem_append.mp hx with h | h
  · exact Or.inl h
  · rcases List.mem_singleton.mp h with rfl
    exact Or.inr hn

theorem relAll (C : List String) : ∀ fuel : Nat,
    (∀ node st st', analyzeNodeF fuel node st = some st' →
      (∀ n ∈ callNames node, n ∈ C) → storeInv C st → Rel C st st') ∧
    (∀ nodes st st', analyzeNodesF fuel nodes st = some st' →
      (∀ n ∈ callNamesList nodes, n ∈ C) → storeInv C st → Rel C st st') ∧
    (∀ nm ps body st st', analyzeMacroF fuel nm ps body st = some st' →
      (∀ n ∈ callNamesList body, n ∈ C) → storeInv C st → Rel C st st') ∧
    (∀ nm ps body st st', analyzeFunctionF fuel nm ps body st = some st' →
      (∀ n ∈ callNamesList body, n ∈ C) → storeInv C st → Rel C st st') ∧
    (∀ nm params st st', analyzeMacroCallF fuel nm params st = some st' →
      nm ∈ C → storeInv C st → Rel C st st') := by
  intro fuel
  induction fuel with
  | zero =>
      refine ⟨?_, ?_, ?_, ?_, ?_⟩
      · intro node st st' hrun
        simp [analyzeNodeF] at hrun
      · intro nodes st st' hrun
        simp [analyzeNodesF] at hrun
      · intro nm ps body st st' hrun
        simp [analyzeMacroF] at hrun
      · intro nm ps body st st' hrun
        simp [analyzeFunctionF] at hrun
      · intro nm params st st' hrun
        simp [analyzeMacroCallF] at hrun
  | succ fuel ih =>
      obtain ⟨ihNode, ihNodes, ihMacro, ihFun, ihCall⟩ := ih
      refine ⟨?_, ?_, ?_, ?_, ?_⟩
      · intro node st st' hrun hC hS
        cases node with
        | textNode s =>
            simp only [analyzeNodeF] at hrun
            obtain rfl := Option.some.inj hrun
            exact Rel_refl C st
        | interpolation e =>
            simp only [analyzeNodeF] at hrun
            obtain rfl := Option.some.inj hrun
            exact Rel_analyzeExpression C e st
        | defMacro n2 ps2 b2 =>
            simp only [analyzeNodeF] at hrun
            exact ihMacro n2 ps2 b2 st st' hrun (by simpa [callNames] using hC) hS
        | defFunction n2 ps2 b2 =>
            simp only [analyzeNodeF] at hrun
            exact ihFun n2 ps2 b2 st st' hrun (by simpa [callNames] using hC) hS
        | callMacro n2 params =>
            simp only [analyzeNodeF] at hrun
            exact ihCall n2 params st st' hrun (hC n2 (by simp [callNames])) hS
      · intro nodes st st' hrun hC hS
        cases nodes with
        | nil =>
            simp only [analyzeNodesF] at hrun
            obtain rfl := Option.some.inj hrun
            exact Rel_refl C st
        | cons n rest =>
            simp only [analyzeNodesF] at hrun
            cases hstep : analyzeNodeF fuel n st with
            | none =>
                rw [hstep] at hrun
                exact Option.noConfusion hrun
            | some st1 =>
                simp only [hstep] at hrun
                have h1 := ihNode n st st1 hstep
                  (fun m hm => hC m (by simp [callNamesList]; exact Or.inl hm)) hS
                have h2 := ihNodes rest st1 st' hrun
                  (fun m hm => hC m (by simp [callNamesList]; exact Or.inr hm))
                  (h1.2.2.2 hS)
                exact Rel_trans h1 h2
      · intro nm ps body st st' hrun hb hS
        simp only [analyzeMacroF] at hrun
        split at hrun
        · rename_i st2 heq
          obtain rfl := Option.some.inj hrun
          have hd := Rel_declareMacro C nm ps body st hb
          have h2 := ihNodes body _ st2 heq hb (hd.2.2.2 hS)
          exact Rel_trans hd h2
        · exact Option.noConfusion hrun
      · intro nm ps body st st' hrun hb hS
        simp only [analyzeFunctionF] at hrun
        split at hrun
        · rename_i st2 heq
          obtain rfl := Option.some.inj hrun
          have hd := Rel_declareFunction C nm ps st
          have h2 := ihNodes body _ st2 heq hb (hd.2.2.2 hS)
          exact Rel_trans hd h2
        · exact Option.noConfusion hrun
      · intro nm params st st' hrun hn hS
        simp only [analyzeMacroCallF] at hrun
        split at hrun
        · obtain rfl := Option.some.inj hrun
          exact Rel_exprFold C params st
        · have hfold := Rel_exprFold C params st
          have hS0 := hfold.2.2.2 hS
          split at hrun
          · rename_i x id hfound
            split at hrun
            · rename_i obj hso
              split at hrun
              · rename_i mbody hnode
                split at hrun
                · obtain rfl := Option.some.inj hrun
                  exact hfold
                · split at hrun
                  · rename_i st2 heq
                    obtain rfl := Option.some.inj hrun
                    have hobjmem : obj ∈
                        (params.foldl (fun acc p => analyzeExpression p.2 acc) st).store := by
                      obtain ⟨hlt, hEq⟩ := List.getElem?_eq_some_iff.mp hso
                      rw [← hEq]
                      exact List.getElem_mem hlt
                    have hb2 : ∀ x ∈ callNamesList mbody, x ∈ C := by
                      intro x hx
                      have hcn := hS0 obj hobjmem x
                      apply hcn
                      rw [hnode]
                      simpa [callNamesOpt] using hx
                    have h2 := ihNodes mbody _ st2 heq hb2 hS0
                    exact Rel_trans hfold h2
                  · exact Option.noConfusion hrun
              · obtain rfl := Option.some.inj hrun
                exact Rel_trans hfold
                  (Rel_defer C nm (params.foldl (fun acc p => analyzeExpression p.2 acc) st) hn)
            · obtain rfl := Option.some.inj hrun
              exact Rel_trans hfold
                (Rel_defer C nm (params.foldl (fun acc p => analyzeExpression p.2 acc) st) hn)
          · obtain rfl := Option.some.inj hrun
            exact Rel_trans hfold
              (Rel_defer C nm (params.foldl (fun acc p => analyzeExpression p.2 acc) st) hn)

theorem reportFold_diags (l : List String) (acc : SAState)
    (h : ∀ n ∈ l, (alookup n acc.semMacros).isSome) :
    (l.foldl (fun acc n =>
      if (alookup n acc.semMacros).isSome then acc
      else { acc with diags := acc.diags ++
              [{ message := "Undefined macro: " ++ n, code := some "FTL2004" }] }) acc).diags
      = acc.diags := by
  induction l generalizing acc with
  | nil => rfl
  | cons n rest ih =>
      simp only [List.foldl_cons]
      rw [if_pos (h n (List.mem_cons_self n rest))]
      exact ih acc (fun m hm => h m (List.mem_cons_of_mem n hm))

theorem reportUnresolved_noop (st : SAState)
    (h : ∀ n ∈ st.unresolved, (alookup n st.semMacros).isSome) :
    (reportUnresolvedMacros st).diags = st.diags := by
  unfold reportUnresolvedMacros
  exact reportFold_diags st.unresolved st h

theorem reportFold_mem (l : List String) (acc : SAState) (d : SADiag)
    (hd : d ∈ (l.foldl (fun acc n =>
      if (alookup n acc.semMacros).isSome then acc
      else { acc with diags := acc.diags ++
              [{ message := "Undefined macro: " ++ n, code := some "FTL2004" }] }) acc).diags) :
    d ∈ acc.diags ∨ (d.code = some "FTL2004" ∧ ∃ n, d.message = "Undefined macro: " ++ n) := by
  induction l generalizing acc with
  | nil => exact Or.inl hd
  | cons n rest ih =>
      simp only [List.foldl_cons] at hd
      by_cases hn : (alookup n acc.semMacros).isSome
      · rw [if_pos hn] at hd
        exact ih acc hd
      · rw [if_neg hn] at hd
        rcases ih _ hd with h | h
        · rcases List.mem_append.mp h with h2 | h2
          · exact Or.inl h2
          · rcases List.mem_singleton.mp h2 with rfl
            exact Or.inr ⟨rfl, n, rfl⟩
        · exact Or.inr h

theorem c4_no_ftl2004 (fuel : Nat) (stf : SAState)
    (hrun : runAnalyze fuel c4Template = some stf) :
    stf.diags.filter (fun d => decide (d.code = some "FTL2004")) = [] := by
  unfold runAnalyze at hrun
  split at hrun
  · rename_i st' heq
    obtain rfl := Option.some.inj hrun
    simp only [analyzeTemplateF] at heq
    have hC : ∀ n ∈ callNamesList c4Template, n ∈ (["layout", "helper"] : List String) := by
      decide
    have hsem : (alookup "layout"
          (snapshotPass c4Template (predeclarePass c4Template initialSAState)).semMacros).isSome
        ∧ (alookup "helper"
          (snapshotPass c4Template
            (predeclarePass c4Template initialSAState)).semMacros).isSome := by
      decide
    have hdia : (snapshotPass c4Template (predeclarePass c4Template initialSAState)).diags
        = [] := by decide
    have hunres :
        (snapshotPass c4Template (predeclarePass c4Template initialSAState)).unresolved
        = [] := by decide
    have hstore : storeInv ["layout", "helper"]
        (snapshotPass c4Template (predeclarePass c4Template initialSAState)) := by
      unfold storeInv
      decide
    have hrel := (relAll ["layout", "helper"] fuel).2.1 c4Template _ st' heq hC hstore
    have hdigs : ∀ d ∈ st'.diags, d.code = some "FTL2001" := by
      intro d hdm
      rcases hrel.2.1 d hdm with h | h
      · rw [hdia] at h
        exact absurd h (List.not_mem_nil d)
      · exact h
    have hunr : ∀ n ∈ st'.unresolved, (alookup n st'.semMacros).isSome := by
      intro n hnm
      rcases hrel.2.2.1 n hnm with h | h
      · rw [hunres] at h
        exact absurd h (List.not_mem_nil n)
      · rcases List.mem_cons.mp h with rfl | h2
        · exact hrel.1 "layout" hsem.1
        · rcases List.mem_singleton.mp h2 with rfl
          exact hrel.1 "helper" hsem.2
    rw [reportUnresolved_noop st' hunr]
    rw [List.filter_eq_nil_iff]
    intro d hdm
    simp [hdigs d hdm]
  · exact Option.noConfusion hrun

end SemanticAnalyzer

/-- C4: within a Template body every sibling Macro and Function
declaration is registered in the current scope by the predeclaration pass
before any body node is analyzed, so forward references between sibling
macros resolve; unresolved macro calls are re-checked against the
semanticInfo macro map after the whole template is analyzed (runAnalyze
applies reportUnresolvedMacros last); consequently every completed
analysis of the forward-reference template in which layout calls helper
and helper is defined later carries zero FTL2004 diagnostics. -/
theorem C4_sibling_macros_hoisted (body : List SemanticAnalyzer.Node)
    (st : SemanticAnalyzer.SAState) (child : SemanticAnalyzer.Node)
    (hmem : child ∈ body) :
    (∀ n ps b, child = .defMacro n ps b →
      (SemanticAnalyzer.alookup n
        (SemanticAnalyzer.currentFrame
          (SemanticAnalyzer.predeclarePass body st)).macros).isSome) ∧
    (∀ n ps b, child = .defFunction n ps b →
      (SemanticAnalyzer.alookup n
        (SemanticAnalyzer.currentFrame
          (SemanticAnalyzer.predeclarePass body st)).functions).isSome) ∧
    (∀ fuel stf, SemanticAnalyzer.runAnalyze fuel SemanticAnalyzer.c4Template = some stf →
      stf.diags.filter (fun d => decide (d.code = some "FTL2004")) = []) := by
  refine ⟨?_, ?_, fun fuel stf h => SemanticAnalyzer.c4_no_ftl2004 fuel stf h⟩
  · intro n ps b heq
    subst heq
    exact SemanticAnalyzer.predeclarePass_mem_macro body st n ps b hmem
  · intro n ps b heq
    subst heq
    exact SemanticAnalyzer.predeclarePass_mem_function body st n ps b hmem

/-- Concrete instantiation of C4: the first sibling macro of the
forward-reference template is predeclared. -/
theorem C4_sibling_macros_hoisted_witness :
    (SemanticAnalyzer.alookup "layout"
      (SemanticAnalyzer.currentFrame
        (SemanticAnalyzer.predeclarePass SemanticAnalyzer.c4Template
          SemanticAnalyzer.initialSAState)).macros).isSome :=
  (C4_sibling_macros_hoisted SemanticAnalyzer.c4Template SemanticAnalyzer.initialSAState
      (.defMacro "layout" [] [ .callMacro "helper" [] ])
      (List.mem_cons_self _ _)).1
    "layout" [] [ .callMacro "helper" [] ] rfl

/-- C9 counterexample: the code catalog designates FTL2002, not FTL2004,
as the undefined-macro code (FTL2004 is "Variable redefinition"), and the
ErrorReporter's own undefined-macro helper emits FTL2002, while the
semantic analyzer's unresolved-macro re-check emits FTL2004: the system
does not use FTL2004 for undefined macros throughout. -/
theorem C9_counterexample :
    ((ErrorReporter.addUndefinedMacroError "m" { line := 1, character := 1, offset := 0 }
        ErrorReporter.initial).diagnostics.map Diagnostic.code = [some "FTL2002"]) ∧
    ((ErrorReporter.lookupErrorCode "FTL2004").map ErrorReporter.ErrorCode.description
      = some "Variable redefinition") ∧
    ((ErrorReporter.lookupErrorCode "FTL2002").map ErrorReporter.ErrorCode.description
      = some "Undefined macro") ∧
    ((SemanticAnalyzer.reportUnresolvedMacros SemanticAnalyzer.c9State).diags.map
        SemanticAnalyzer.SADiag.code = [some "FTL2004"]) ∧
    ¬ ((some "FTL2002" : Option String) = some "FTL2004") := by
  decide

/-- C9 amended: every diagnostic the semantic analyzer emits for an
unresolved macro call carries code FTL2004 with message "Undefined
macro: <name>"; however, in the ErrorReporter catalog FTL2004 is
designated "Variable redefinition" and the undefined-macro description
belongs to FTL2002, which is also the code the ErrorReporter's
undefined-macro helper attaches (when not suppressed). -/
theorem C9_undefined_macro_code_amended (st : SemanticAnalyzer.SAState)
    (d : SemanticAnalyzer.SADiag)
    (hd : d ∈ (SemanticAnalyzer.reportUnresolvedMacros st).diags) :
    (d ∈ st.diags ∨
      (d.code = some "FTL2004" ∧ ∃ n, d.message = "Undefined macro: " ++ n)) ∧
    ((ErrorReporter.lookupErrorCode "FTL2004").map ErrorReporter.ErrorCode.description
      = some "Variable redefinition") ∧
    ((ErrorReporter.lookupErrorCode "FTL2002").map ErrorReporter.ErrorCode.description
      = some "Undefined macro") ∧
    (∀ (nm : String) (p : Pos) (r : ErrorReporter.State),
      ¬ "FTL2002" ∈ r.suppressedCodes →
      (ErrorReporter.addUndefinedMacroError nm p r).diagnostics.map Diagnostic.code
        = r.diagnostics.map Diagnostic.code ++ [some "FTL2002"]) := by
  refine ⟨SemanticAnalyzer.reportFold_mem st.unresolved st d hd, by decide, by decide, ?_⟩
  intro nm p r hs
  simp only [ErrorReporter.addUndefinedMacroError, ErrorReporter.addError,
    ErrorReporter.addDiagnostic]
  rw [if_neg (by simpa using hs)]
  simp

/-- Concrete instantiation of C9 amended at a state with one deferred
undefined macro call. -/
theorem C9_undefined_macro_code_amended_witness :
    (SemanticAnalyzer.c9Diag ∈ SemanticAnalyzer.c9State.diags ∨
      (SemanticAnalyzer.c9Diag.code = some "FTL2004" ∧
        ∃ n, SemanticAnalyzer.c9Diag.message = "Undefined macro: " ++ n)) ∧
    ((ErrorReporter.lookupErrorCode "FTL2004").map ErrorReporter.ErrorCode.description
      = some "Variable redefinition") ∧
    ((ErrorReporter.lookupErrorCode "FTL2002").map ErrorReporter.ErrorCode.description
      = some "Undefined macro") ∧
    (∀ (nm : String) (p : Pos) (r : ErrorReporter.State),
      ¬ "FTL2002" ∈ r.suppressedCodes →
      (ErrorReporter.addUndefinedMacroError nm p r).diagnostics.map Diagnostic.code
        = r.diagnostics.map Diagnostic.code ++ [some "FTL2002"]) :=
  C9_undefined_macro_code_amended SemanticAnalyzer.c9State SemanticAnalyzer.c9Diag
    (by decide)
